import Mathlib

/-!
Verification of the mrpack modpack installer (`launcher_core/mrpack.py`)
of async-mc-launcher-core.

Embedding choices:
* A filesystem path is its list of `/`-separated segments (`FsPath`), so
  `os.path.join` + `os.path.abspath` becomes segment concatenation followed
  by `..`/`.`-normalisation (`normSegs`, `absJoin`).  Directory arguments are
  assumed already absolute and normalised, as after the `os.path.abspath`
  calls at the top of `install_mrpack`.
* `install_mrpack` is effectful (callback invocations, HTTP, file writes,
  delegated installers).  It is embedded as a function producing the ordered
  trace of those effects (`Event`) together with an optional error.  The
  delegated installers (`install_minecraft_version`, `install_forge_version`,
  `install_fabric`, `install_quilt`) and `download_file` are collaborators
  outside this module and appear as single opaque trace events; their own
  callback usage is not part of the trace.
* The HTTP HEAD collaborator is a function from URL to status code.
* JSON dictionaries are embedded as structures holding exactly the keys the
  code reads; an `Option` field models presence of an optional key.
-/

set_option autoImplicit false

/-- A filesystem path, as the list of its `/`-separated segments. -/
abbrev FsPath := List String

/-- Normalise the segments `rest` on top of the already-normalised absolute
path `acc`: `..` pops a segment (staying at the root when empty, as
`os.path.abspath` does), `.` and empty segments vanish, anything else is
appended.  This is the segment-level content of `os.path.abspath`. -/
def normSegs (acc : FsPath) : List String → FsPath
  | [] => acc
  | s :: rest =>
    if s = ".." then normSegs acc.dropLast rest
    else if s = "." ∨ s = "" then normSegs acc rest
    else normSegs (acc ++ [s]) rest

/-- Embedding of `os.path.abspath(os.path.join(base, rel))` for an absolute normalised
`base` and a relative `rel`. -/
def absJoin (base : FsPath) (rel : FsPath) : FsPath :=
  normSegs base rel

/-- Modelled from the spec: the Path Safety Guard
`check_path_inside_minecraft_directory` of `launcher_core/_helper.py` (that
file is not in the sources at hand).  Per spec section 4.3 it fails
"if the candidate is not a descendant of the base", both taken in canonical
form; in the segment model a candidate is a descendant of the base exactly
when the base's segment list is a prefix of the candidate's.  Returns
`true` when the candidate is allowed. -/
def check_path_inside_minecraft_directory (base : FsPath) (candidate : FsPath) : Bool :=
  base.isPrefixOf candidate

/-- One entry of the manifest's `files` list (`MrpackFile` TypedDict).
`sha1` embeds `file["hashes"]["sha1"]`; `env` embeds `file["env"]["client"]`
with `none` for an absent `"env"` key. -/
structure MrpackFile where
  path : FsPath
  downloads : List String
  sha1 : String
  env : Option String
  deriving DecidableEq, Repr

/-- The `dependencies` mapping of the manifest: the four keys the code
reads (`minecraft`, `forge`, `fabric-loader`, `quilt-loader`);
`minecraft` is mandatory, the loaders optional. -/
structure Dependencies where
  minecraft : String
  forge : Option String
  fabricLoader : Option String
  quiltLoader : Option String
  deriving DecidableEq, Repr

/-- The parsed `modrinth.index.json` manifest, restricted to the fields
`install_mrpack` and `get_mrpack_launch_version` read (the name/summary/
version-id fields only feed `get_mrpack_information`). -/
structure MrpackIndex where
  dependencies : Dependencies
  files : List MrpackFile
  deriving DecidableEq, Repr

/-- The `mrpack_install_options` dict; `none` models an absent key. -/
structure MrpackInstallOptions where
  optionalFiles : Option (List FsPath)
  skipDependenciesInstall : Option Bool
  deriving DecidableEq, Repr

/-- A member of the archive's `namelist()`: its name (as path segments, a
trailing empty segment standing for a trailing `/`), its recorded
`file_size`, and its bytes. -/
structure ZipEntry where
  name : FsPath
  fileSize : Nat
  data : List Nat
  deriving DecidableEq, Repr

/-- The observable effects of `install_mrpack`, in order: callback-slot
invocations, path-guard checks, downloads, directory creation, file writes,
HTTP HEAD probes, and the delegated dependency installs. -/
inductive Event where
  | setStatus (text : String)
  | setMax (total : Nat)
  | setProgress (current : Nat)
  | pathCheck (base : FsPath) (candidate : FsPath)
  | download (url : String) (dest : FsPath) (sha1 : String)
  | makeDirs (dir : FsPath)
  | writeFile (dest : FsPath) (data : List Nat)
  | headRequest (url : String)
  | installMinecraft (version : String) (dir : FsPath)
  | installForge (version : String) (dir : FsPath)
  | installFabric (minecraftVersion : String) (dir : FsPath) (loader : String)
  | installQuilt (minecraftVersion : String) (dir : FsPath) (loader : String)
  deriving DecidableEq, Repr

/-- The errors `install_mrpack` can raise itself: the guard's
`FileOutsideMinecraftDirectory` (spec: `PathEscapesRoot`) and
`VersionNotFound` from Forge resolution. -/
inductive InstallError where
  | pathEscapesRoot (candidate : FsPath)
  | versionNotFound (version : String)
  deriving DecidableEq, Repr

/-- Embedding of `_filter_mrpack_files` of `mrpack.py`: keeps entries without an `env`
key, entries with `env.client == "required"`, and entries with
`env.client == "optional"` whose path is in
`mrpack_install_options.get("optionalFiles", [])`; the source appends via
two independent `if` statements, mirrored here. -/
def _filter_mrpack_files (file_list : List MrpackFile)
    (mrpack_install_options : MrpackInstallOptions) : List MrpackFile :=
  match file_list with
  | [] => []
  | file :: rest =>
    match file.env with
    | none => file :: _filter_mrpack_files rest mrpack_install_options
    | some client =>
      (if client = "required" then [file] else []) ++
      ((if client = "optional" ∧ file.path ∈ mrpack_install_options.optionalFiles.getD []
        then [file] else []) ++
       _filter_mrpack_files rest mrpack_install_options)

/-- The download loop of `install_mrpack` (`for count, file in
enumerate(file_list)`): resolve the destination, run the path guard, then
download with the entry's first URL and sha1 hash, then report progress
`count + 1`.  A failing guard stops the loop with `pathEscapesRoot` before
the download event of that entry. -/
def downloadLoop (modpack_directory : FsPath) (count : Nat) :
    List MrpackFile → List Event × Option InstallError
  | [] => ([], none)
  | file :: rest =>
    let full_path := absJoin modpack_directory file.path
    if check_path_inside_minecraft_directory modpack_directory full_path then
      let r := downloadLoop modpack_directory (count + 1) rest
      (Event.pathCheck modpack_directory full_path ::
       Event.download (file.downloads.headD "") full_path file.sha1 ::
       Event.setProgress (count + 1) :: r.fst, r.snd)
    else
      ([Event.pathCheck modpack_directory full_path],
       some (InstallError.pathEscapesRoot full_path))

/-- True when a zip entry name starts with the directory prefix `d ++ "/"`:
in the segment model, first segment `d` followed by at least one more
segment. -/
def startsWithDir (d : String) : FsPath → Bool
  | s :: _ :: _ => s = d
  | _ => false

/-- Whether the override loop processes this archive entry: name prefixed
`overrides/` or `client-overrides/` and nonzero recorded file size. -/
def overrideSelected (e : ZipEntry) : Bool :=
  (startsWithDir "overrides" e.name || startsWithDir "client-overrides" e.name)
    && e.fileSize != 0

/-- Strip the matching override prefix from the entry name (the source drops
`len("client-overrides/")` or `len("overrides/")` characters; in segments
both drop the first segment). -/
def stripOverridePre (name : FsPath) : FsPath :=
  if startsWithDir "client-overrides" name then name.tail else name.tail

/-- Join a path's segments back into the display string used in the
`f"Extract {zip_name}]"` status message. -/
def pathToString (p : FsPath) : String :=
  String.intercalate "/" p

/-- The override-extraction loop of `install_mrpack`: skip entries outside
the two override prefixes and zero-size (directory) entries; for the rest,
strip the prefix, resolve against the modpack directory, run the path
guard, report status, create parent directories and write the entry's
bytes. -/
def overrideLoop (modpack_directory : FsPath) :
    List ZipEntry → List Event × Option InstallError
  | [] => ([], none)
  | e :: rest =>
    if overrideSelected e then
      let full_path := absJoin modpack_directory (stripOverridePre e.name)
      if check_path_inside_minecraft_directory modpack_directory full_path then
        let r := overrideLoop modpack_directory rest
        (Event.pathCheck modpack_directory full_path ::
         Event.setStatus ("Extract " ++ pathToString e.name ++ "]") ::
         Event.makeDirs full_path.dropLast ::
         Event.writeFile full_path e.data :: r.fst, r.snd)
      else
        ([Event.pathCheck modpack_directory full_path],
         some (InstallError.pathEscapesRoot full_path))
    else
      overrideLoop modpack_directory rest

/-- The Forge Maven installer URL pattern of `mrpack.py` line 203,
instantiated at a candidate version. -/
def forgeMavenUrl (version : String) : String :=
  "https://maven.minecraftforge.net/net/minecraftforge/forge/" ++ version ++
    "/forge-" ++ version ++ "-installer.jar"

/-- First Forge candidate version string: `<minecraft>-<forge>`. -/
def forgeCandidate1 (deps : Dependencies) (forgeDep : String) : String :=
  deps.minecraft ++ "-" ++ forgeDep

/-- Second Forge candidate version string: `<minecraft>-<forge>-<minecraft>`. -/
def forgeCandidate2 (deps : Dependencies) (forgeDep : String) : String :=
  deps.minecraft ++ "-" ++ forgeDep ++ "-" ++ deps.minecraft

/-- The `"forge" in index["dependencies"]` block: probe the two candidate
version strings with HEAD requests in order, install the first one whose
status is 200, and raise `VersionNotFound` when neither resolves (the
`for`/`else` of the source). -/
def forgePhase (deps : Dependencies) (minecraft_directory : FsPath)
    (head : String → Nat) : List Event × Option InstallError :=
  match deps.forge with
  | none => ([], none)
  | some forgeDep =>
    let c1 := forgeCandidate1 deps forgeDep
    let c2 := forgeCandidate2 deps forgeDep
    if head (forgeMavenUrl c1) = 200 then
      ([Event.headRequest (forgeMavenUrl c1),
        Event.setStatus ("Installing Forge " ++ c1),
        Event.installForge c1 minecraft_directory], none)
    else if head (forgeMavenUrl c2) = 200 then
      ([Event.headRequest (forgeMavenUrl c1),
        Event.headRequest (forgeMavenUrl c2),
        Event.setStatus ("Installing Forge " ++ c2),
        Event.installForge c2 minecraft_directory], none)
    else
      ([Event.headRequest (forgeMavenUrl c1),
        Event.headRequest (forgeMavenUrl c2)],
       some (InstallError.versionNotFound forgeDep))

/-- The `"fabric-loader" in index["dependencies"]` block. -/
def fabricPhase (deps : Dependencies) (minecraft_directory : FsPath) : List Event :=
  match deps.fabricLoader with
  | none => []
  | some loader =>
    [Event.setStatus ("Installing Fabric " ++ loader ++ " for Minecraft " ++ deps.minecraft),
     Event.installFabric deps.minecraft minecraft_directory loader]

/-- The `"quilt-loader" in index["dependencies"]` block. -/
def quiltPhase (deps : Dependencies) (minecraft_directory : FsPath) : List Event :=
  match deps.quiltLoader with
  | none => []
  | some loader =>
    [Event.setStatus ("Installing Quilt " ++ loader ++ " for Minecraft " ++ deps.minecraft),
     Event.installQuilt deps.minecraft minecraft_directory loader]

/-- Sequence two effectful phases: a raised error in the first aborts
before the second runs (Python exception propagation). -/
def seqPhase (a b : List Event × Option InstallError) :
    List Event × Option InstallError :=
  match a.snd with
  | some e => (a.fst, some e)
  | none => (a.fst ++ b.fst, b.snd)

/-- The download phase: status message and `setMax` with the filtered-file
count, then the download loop. -/
def downloadPhase (modpack_directory : FsPath) (file_list : List MrpackFile) :
    List Event × Option InstallError :=
  let r := downloadLoop modpack_directory 0 file_list
  (Event.setStatus "Download mrpack files" :: Event.setMax file_list.length :: r.fst,
   r.snd)

/-- The override-extraction phase: status message, then the override loop. -/
def overridePhase (modpack_directory : FsPath) (entries : List ZipEntry) :
    List Event × Option InstallError :=
  let r := overrideLoop modpack_directory entries
  (Event.setStatus "Extract overrides" :: r.fst, r.snd)

/-- The dependency-install block: always install the manifest's minecraft
version into the minecraft directory, then the Forge, Fabric and Quilt
blocks in this order (three independent `if` statements in the source). -/
def depsPhase (deps : Dependencies) (minecraft_directory : FsPath)
    (head : String → Nat) : List Event × Option InstallError :=
  seqPhase
    ([Event.setStatus ("Installing Minecraft " ++ deps.minecraft),
      Event.installMinecraft deps.minecraft minecraft_directory], none)
    (seqPhase (forgePhase deps minecraft_directory head)
      (fabricPhase deps minecraft_directory ++ quiltPhase deps minecraft_directory,
       none))

/-- The modpack directory actually used: the `modpack_directory` argument
when given, else the minecraft directory (`if modpack_directory is None`). -/
def modpackDir (minecraft_directory : FsPath) (modpack_directory : Option FsPath) : FsPath :=
  modpack_directory.getD minecraft_directory

/-- Embedding of `install_mrpack` of `mrpack.py`, over the parsed manifest and archive
entry list (zip opening and JSON parsing are the Archive Reader
collaborator): filter the files, download them, extract the overrides, and
— unless `skipDependenciesInstall` is truthy — install the declared
dependencies.  Produces the effect trace and the raised error, if any. -/
def install_mrpack (index : MrpackIndex) (zipEntries : List ZipEntry)
    (minecraft_directory : FsPath) (modpack_directory : Option FsPath)
    (head : String → Nat) (mrpack_install_options : MrpackInstallOptions) :
    List Event × Option InstallError :=
  let md := modpackDir minecraft_directory modpack_directory
  seqPhase (downloadPhase md (_filter_mrpack_files index.files mrpack_install_options))
    (seqPhase (overridePhase md zipEntries)
      (if mrpack_install_options.skipDependenciesInstall.getD false then ([], none)
       else depsPhase index.dependencies minecraft_directory head))

/-- Embedding of `get_mrpack_launch_version` of `mrpack.py`, over the parsed manifest:
early-return cascade forge, fabric-loader, quilt-loader, bare minecraft. -/
def get_mrpack_launch_version (index : MrpackIndex) : String :=
  match index.dependencies.forge with
  | some forgeDep => index.dependencies.minecraft ++ "-forge-" ++ forgeDep
  | none =>
    match index.dependencies.fabricLoader with
    | some loader => "fabric-loader-" ++ loader ++ "-" ++ index.dependencies.minecraft
    | none =>
      match index.dependencies.quiltLoader with
      | some loader => "quilt-loader-" ++ loader ++ "-" ++ index.dependencies.minecraft
      | none => index.dependencies.minecraft

/-- The download events of a trace, as `(url, destination, sha1)` triples. -/
def downloadEvents (tr : List Event) : List (String × FsPath × String) :=
  tr.filterMap fun e =>
    match e with
    | Event.download u d s => some (u, d, s)
    | _ => none

/-- The file-write events of a trace, as `(destination, bytes)` pairs. -/
def writeEvents (tr : List Event) : List (FsPath × List Nat) :=
  tr.filterMap fun e =>
    match e with
    | Event.writeFile p d => some (p, d)
    | _ => none

/-- The directory-creation events of a trace. -/
def makeDirsEvents (tr : List Event) : List FsPath :=
  tr.filterMap fun e =>
    match e with
    | Event.makeDirs p => some p
    | _ => none

/-- The arguments of the `setMax` callback invocations of a trace. -/
def setMaxEvents (tr : List Event) : List Nat :=
  tr.filterMap fun e =>
    match e with
    | Event.setMax n => some n
    | _ => none

/-- The arguments of the `setProgress` callback invocations of a trace. -/
def setProgressEvents (tr : List Event) : List Nat :=
  tr.filterMap fun e =>
    match e with
    | Event.setProgress n => some n
    | _ => none

/-- The URLs probed with HTTP HEAD requests in a trace. -/
def headEvents (tr : List Event) : List String :=
  tr.filterMap fun e =>
    match e with
    | Event.headRequest u => some u
    | _ => none

/-- The Forge installer invocations of a trace, as `(version, dir)` pairs. -/
def forgeInstallEvents (tr : List Event) : List (String × FsPath) :=
  tr.filterMap fun e =>
    match e with
    | Event.installForge v d => some (v, d)
    | _ => none

/-- The path-guard invocations of a trace, as `(base, candidate)` pairs. -/
def pathCheckEvents (tr : List Event) : List (FsPath × FsPath) :=
  tr.filterMap fun e =>
    match e with
    | Event.pathCheck b p => some (b, p)
    | _ => none

/-- True for the three mod-loader installer events. -/
def isLoaderInstall : Event → Bool
  | Event.installForge _ _ => true
  | Event.installFabric _ _ _ => true
  | Event.installQuilt _ _ _ => true
  | _ => false

/-- True for any delegated dependency installer event, the base-game
installer included. -/
def isDepInstall : Event → Bool
  | Event.installMinecraft _ _ => true
  | e => isLoaderInstall e

/-- The mod-loader installer events of a trace. -/
def loaderInstallEvents (tr : List Event) : List Event :=
  tr.filter isLoaderInstall

/-- The dependency installer events of a trace. -/
def depInstallEvents (tr : List Event) : List Event :=
  tr.filter isDepInstall

/-- The target directories handed to the delegated dependency installers in
a trace. -/
def depInstallDirs (tr : List Event) : List FsPath :=
  tr.filterMap fun e =>
    match e with
    | Event.installMinecraft _ d => some d
    | Event.installForge _ d => some d
    | Event.installFabric _ d _ => some d
    | Event.installQuilt _ d _ => some d
    | _ => none

/-- Scan a trace and confirm that every download and every file write names
a destination that an earlier `pathCheck` against the base `md` already
guarded (`checked` carries the destinations guarded so far). -/
def guardedFrom (md : FsPath) (checked : List FsPath) : List Event → Bool
  | [] => true
  | Event.pathCheck b p :: rest =>
    guardedFrom md (if b = md then p :: checked else checked) rest
  | Event.download _ d _ :: rest => decide (d ∈ checked) && guardedFrom md checked rest
  | Event.writeFile p _ :: rest => decide (p ∈ checked) && guardedFrom md checked rest
  | _ :: rest => guardedFrom md checked rest

/-- True for `setMax` events. -/
def isSetMax : Event → Bool
  | Event.setMax _ => true
  | _ => false

/-- True for download events. -/
def isDownloadEv : Event → Bool
  | Event.download _ _ _ => true
  | _ => false

/-- True for `setProgress` events. -/
def isSetProgress : Event → Bool
  | Event.setProgress _ => true
  | _ => false

/-- No download event occurs before the first `setMax` invocation of the
trace. -/
def noDownloadBeforeSetMax (tr : List Event) : Bool :=
  (tr.takeWhile fun e => !isSetMax e).all fun e => !isDownloadEv e

/-- The download-phase skeleton the spec describes: for each file, in
manifest order, a download of the entry's first URL to its resolved
destination carrying the entry's sha1, followed by `setProgress` of the
running count. -/
def expectedDownloadTrace (md : FsPath) (count : Nat) :
    List MrpackFile → List Event
  | [] => []
  | file :: rest =>
    Event.download (file.downloads.headD "") (absJoin md file.path) file.sha1 ::
    Event.setProgress (count + 1) :: expectedDownloadTrace md (count + 1) rest

/-- The interleaving of download and progress events of a trace. -/
def downloadProgressEvents (tr : List Event) : List Event :=
  tr.filter fun e => isDownloadEv e || isSetProgress e

/-- True exactly when the result is the path-guard error. -/
def isPathError : Option InstallError → Bool
  | some (InstallError.pathEscapesRoot _) => true
  | _ => false

/-- The filter rule of `_filter_mrpack_files`, as a predicate on one entry:
no `env` key, or `env.client == "required"`, or `env.client == "optional"`
with the path opted into. -/
def mrpackFileIncluded (mrpack_install_options : MrpackInstallOptions)
    (file : MrpackFile) : Bool :=
  decide (file.env = none) || decide (file.env = some "required") ||
    (decide (file.env = some "optional") &&
     decide (file.path ∈ mrpack_install_options.optionalFiles.getD []))

/-- Destination of an override entry: strip the override prefix and resolve
against the modpack directory. -/
def overrideDest (modpack_directory : FsPath) (e : ZipEntry) : FsPath :=
  absJoin modpack_directory (stripOverridePre e.name)

/-- Number of loader keys (`forge`, `fabric-loader`, `quilt-loader`)
declared in the manifest's dependencies. -/
def loaderKeyCount (deps : Dependencies) : Nat :=
  (if deps.forge.isSome then 1 else 0) +
  (if deps.fabricLoader.isSome then 1 else 0) +
  (if deps.quiltLoader.isSome then 1 else 0)

/-- Empty `mrpack_install_options` (both keys absent). -/
def noOptions : MrpackInstallOptions := ⟨none, none⟩

/-- Concrete minecraft directory `/home/user/mc` used by the scenarios. -/
def mcDirFix : FsPath := ["home", "user", "mc"]

/-- Manifest of the spec's path-escape scenario: one required file whose
path `../../escape.txt` resolves outside the target directory. -/
def escapeIndex : MrpackIndex :=
  { dependencies := { minecraft := "1.20.1", forge := none,
                      fabricLoader := none, quiltLoader := none },
    files := [{ path := ["..", "..", "escape.txt"],
                downloads := ["https://cdn.modrinth.com/data/escape.jar"],
                sha1 := "da39a3ee5e6b4b0d3255bfef95601890afd80709",
                env := none }] }

/-- Manifest declaring two loader keys (`forge` and `fabric-loader`). -/
def multiLoaderIndex : MrpackIndex :=
  { dependencies := { minecraft := "1.20.1", forge := some "47.2.0",
                      fabricLoader := some "0.15.0", quiltLoader := none },
    files := [] }

/-- Manifest declaring only the `forge` loader key. -/
def forgeOnlyIndex : MrpackIndex :=
  { dependencies := { minecraft := "1.20.1", forge := some "47.2.0",
                      fabricLoader := none, quiltLoader := none },
    files := [] }

/-- Manifest of the spec's launch-version scenario:
`{"minecraft": "1.20.1", "fabric-loader": "0.15.0"}`. -/
def fabricScenarioIndex : MrpackIndex :=
  { dependencies := { minecraft := "1.20.1", forge := none,
                      fabricLoader := some "0.15.0", quiltLoader := none },
    files := [] }

/-- Archive entry list with a non-override entry, an override directory
marker, and two real override files. -/
def zipFix : List ZipEntry :=
  [{ name := ["modrinth.index.json"], fileSize := 5, data := [1, 2, 3, 4, 5] },
   { name := ["overrides", ""], fileSize := 0, data := [] },
   { name := ["overrides", "config", "a.txt"], fileSize := 3, data := [10, 11, 12] },
   { name := ["client-overrides", "b.txt"], fileSize := 2, data := [7, 8] }]

/-- Manifest with two downloadable files: one `required`, one without an
`env` key. -/
def twoFilesIndex : MrpackIndex :=
  { dependencies := { minecraft := "1.20.1", forge := none,
                      fabricLoader := none, quiltLoader := none },
    files := [{ path := ["mods", "one.jar"],
                downloads := ["https://cdn.modrinth.com/data/one.jar",
                              "https://mirror.example/one.jar"],
                sha1 := "1111111111111111111111111111111111111111",
                env := some "required" },
              { path := ["mods", "two.jar"],
                downloads := ["https://cdn.modrinth.com/data/two.jar"],
                sha1 := "2222222222222222222222222222222222222222",
                env := none }] }

/-- True for file-write events. -/
def isWriteFileEv : Event → Bool
  | Event.writeFile _ _ => true
  | _ => false

theorem seqPhase_none {a b : List Event × Option InstallError} (h : a.snd = none) :
    seqPhase a b = (a.fst ++ b.fst, b.snd) := by
  unfold seqPhase
  rw [h]

theorem seqPhase_some {a b : List Event × Option InstallError} {e : InstallError}
    (h : a.snd = some e) : seqPhase a b = (a.fst, some e) := by
  unfold seqPhase
  rw [h]

theorem install_mrpack_eq (index : MrpackIndex) (zipEntries : List ZipEntry)
    (mcd : FsPath) (mpd : Option FsPath) (head : String → Nat)
    (opts : MrpackInstallOptions) :
    install_mrpack index zipEntries mcd mpd head opts =
      seqPhase (downloadPhase (modpackDir mcd mpd) (_filter_mrpack_files index.files opts))
        (seqPhase (overridePhase (modpackDir mcd mpd) zipEntries)
          (if opts.skipDependenciesInstall.getD false then ([], none)
           else depsPhase index.dependencies mcd head)) := rfl

theorem downloadPhase_eq (md : FsPath) (fl : List MrpackFile) :
    downloadPhase md fl =
      (Event.setStatus "Download mrpack files" :: Event.setMax fl.length ::
        (downloadLoop md 0 fl).fst, (downloadLoop md 0 fl).snd) := rfl

theorem overridePhase_eq (md : FsPath) (entries : List ZipEntry) :
    overridePhase md entries =
      (Event.setStatus "Extract overrides" :: (overrideLoop md entries).fst,
       (overrideLoop md entries).snd) := rfl

theorem downloadLoop_cons_pos {md : FsPath} {c : Nat} {file : MrpackFile}
    {rest : List MrpackFile}
    (h : check_path_inside_minecraft_directory md (absJoin md file.path) = true) :
    downloadLoop md c (file :: rest) =
      (Event.pathCheck md (absJoin md file.path) ::
       Event.download (file.downloads.headD "") (absJoin md file.path) file.sha1 ::
       Event.setProgress (c + 1) :: (downloadLoop md (c + 1) rest).fst,
       (downloadLoop md (c + 1) rest).snd) := by
  rw [downloadLoop]
  simp only [h, if_true]

theorem downloadLoop_cons_neg {md : FsPath} {c : Nat} {file : MrpackFile}
    {rest : List MrpackFile}
    (h : ¬ check_path_inside_minecraft_directory md (absJoin md file.path) = true) :
    downloadLoop md c (file :: rest) =
      ([Event.pathCheck md (absJoin md file.path)],
       some (InstallError.pathEscapesRoot (absJoin md file.path))) := by
  rw [downloadLoop]
  simp [h]

theorem downloadLoop_snd (md : FsPath) (c : Nat) (files : List MrpackFile) :
    (downloadLoop md c files).snd = none ∨
      ∃ p, (downloadLoop md c files).snd = some (InstallError.pathEscapesRoot p) := by
  induction files generalizing c with
  | nil => exact Or.inl rfl
  | cons f rest ih =>
    by_cases h : check_path_inside_minecraft_directory md (absJoin md f.path) = true
    · rw [downloadLoop_cons_pos h]
      exact ih (c + 1)
    · rw [downloadLoop_cons_neg h]
      exact Or.inr ⟨_, rfl⟩

theorem mem_downloadLoop {md : FsPath} {c : Nat} {files : List MrpackFile} {e : Event}
    (he : e ∈ (downloadLoop md c files).fst) :
    (∃ p, e = Event.pathCheck md p) ∨ (∃ u d s, e = Event.download u d s) ∨
      (∃ n, e = Event.setProgress n) := by
  induction files generalizing c with
  | nil => simp [downloadLoop] at he
  | cons f rest ih =>
    by_cases h : check_path_inside_minecraft_directory md (absJoin md f.path) = true
    · rw [downloadLoop_cons_pos h] at he
      simp only [List.mem_cons] at he
      rcases he with rfl | rfl | rfl | hm
      · exact Or.inl ⟨_, rfl⟩
      · exact Or.inr (Or.inl ⟨_, _, _, rfl⟩)
      · exact Or.inr (Or.inr ⟨_, rfl⟩)
      · exact ih hm
    · rw [downloadLoop_cons_neg h] at he
      simp only [List.mem_cons, List.not_mem_nil, or_false] at he
      subst he
      exact Or.inl ⟨_, rfl⟩

theorem overrideLoop_cons_skip {md : FsPath} {e : ZipEntry} {rest : List ZipEntry}
    (h : ¬ overrideSelected e = true) :
    overrideLoop md (e :: rest) = overrideLoop md rest := by
  rw [overrideLoop]
  simp [h]

theorem overrideLoop_cons_pos {md : FsPath} {e : ZipEntry} {rest : List ZipEntry}
    (hsel : overrideSelected e = true)
    (h : check_path_inside_minecraft_directory md (overrideDest md e) = true) :
    overrideLoop md (e :: rest) =
      (Event.pathCheck md (overrideDest md e) ::
       Event.setStatus ("Extract " ++ pathToString e.name ++ "]") ::
       Event.makeDirs (overrideDest md e).dropLast ::
       Event.writeFile (overrideDest md e) e.data :: (overrideLoop md rest).fst,
       (overrideLoop md rest).snd) := by
  rw [overrideLoop]
  simp only [overrideDest] at h
  simp [hsel, h, overrideDest]

theorem overrideLoop_cons_neg {md : FsPath} {e : ZipEntry} {rest : List ZipEntry}
    (hsel : overrideSelected e = true)
    (h : ¬ check_path_inside_minecraft_directory md (overrideDest md e) = true) :
    overrideLoop md (e :: rest) =
      ([Event.pathCheck md (overrideDest md e)],
       some (InstallError.pathEscapesRoot (overrideDest md e))) := by
  rw [overrideLoop]
  simp only [overrideDest] at h
  simp [hsel, h, overrideDest]

theorem overrideLoop_snd (md : FsPath) (entries : List ZipEntry) :
    (overrideLoop md entries).snd = none ∨
      ∃ p, (overrideLoop md entries).snd = some (InstallError.pathEscapesRoot p) := by
  induction entries with
  | nil => exact Or.inl rfl
  | cons e rest ih =>
    by_cases hsel : overrideSelected e = true
    · by_cases h : check_path_inside_minecraft_directory md (overrideDest md e) = true
      · rw [overrideLoop_cons_pos hsel h]
        exact ih
      · rw [overrideLoop_cons_neg hsel h]
        exact Or.inr ⟨_, rfl⟩
    · rw [overrideLoop_cons_skip hsel]
      exact ih

theorem mem_overrideLoop {md : FsPath} {entries : List ZipEntry} {e : Event}
    (he : e ∈ (overrideLoop md entries).fst) :
    (∃ p, e = Event.pathCheck md p) ∨ (∃ t, e = Event.setStatus t) ∨
      (∃ p, e = Event.makeDirs p) ∨ (∃ p d, e = Event.writeFile p d) := by
  induction entries with
  | nil => simp [overrideLoop] at he
  | cons z rest ih =>
    by_cases hsel : overrideSelected z = true
    · by_cases h : check_path_inside_minecraft_directory md (overrideDest md z) = true
      · rw [overrideLoop_cons_pos hsel h] at he
        simp only [List.mem_cons] at he
        rcases he with rfl | rfl | rfl | rfl | hm
        · exact Or.inl ⟨_, rfl⟩
        · exact Or.inr (Or.inl ⟨_, rfl⟩)
        · exact Or.inr (Or.inr (Or.inl ⟨_, rfl⟩))
        · exact Or.inr (Or.inr (Or.inr ⟨_, _, rfl⟩))
        · exact ih hm
      · rw [overrideLoop_cons_neg hsel h] at he
        simp only [List.mem_cons, List.not_mem_nil, or_false] at he
        subst he
        exact Or.inl ⟨_, rfl⟩
    · rw [overrideLoop_cons_skip hsel] at he
      exact ih he

theorem forgePhase_none {deps : Dependencies} {dir : FsPath} {head : String → Nat}
    (h : deps.forge = none) : forgePhase deps dir head = ([], none) := by
  unfold forgePhase
  rw [h]

theorem forgePhase_hit1 {deps : Dependencies} {dir : FsPath} {head : String → Nat}
    {fv : String} (h : deps.forge = some fv)
    (h1 : head (forgeMavenUrl (forgeCandidate1 deps fv)) = 200) :
    forgePhase deps dir head =
      ([Event.headRequest (forgeMavenUrl (forgeCandidate1 deps fv)),
        Event.setStatus ("Installing Forge " ++ forgeCandidate1 deps fv),
        Event.installForge (forgeCandidate1 deps fv) dir], none) := by
  unfold forgePhase
  rw [h]
  simp [h1]

theorem forgePhase_hit2 {deps : Dependencies} {dir : FsPath} {head : String → Nat}
    {fv : String} (h : deps.forge = some fv)
    (h1 : ¬ head (forgeMavenUrl (forgeCandidate1 deps fv)) = 200)
    (h2 : head (forgeMavenUrl (forgeCandidate2 deps fv)) = 200) :
    forgePhase deps dir head =
      ([Event.headRequest (forgeMavenUrl (forgeCandidate1 deps fv)),
        Event.headRequest (forgeMavenUrl (forgeCandidate2 deps fv)),
        Event.setStatus ("Installing Forge " ++ forgeCandidate2 deps fv),
        Event.installForge (forgeCandidate2 deps fv) dir], none) := by
  unfold forgePhase
  rw [h]
  simp [h1, h2]

theorem forgePhase_miss {deps : Dependencies} {dir : FsPath} {head : String → Nat}
    {fv : String} (h : deps.forge = some fv)
    (h1 : ¬ head (forgeMavenUrl (forgeCandidate1 deps fv)) = 200)
    (h2 : ¬ head (forgeMavenUrl (forgeCandidate2 deps fv)) = 200) :
    forgePhase deps dir head =
      ([Event.headRequest (forgeMavenUrl (forgeCandidate1 deps fv)),
        Event.headRequest (forgeMavenUrl (forgeCandidate2 deps fv))],
       some (InstallError.versionNotFound fv)) := by
  unfold forgePhase
  rw [h]
  simp [h1, h2]

theorem fabricPhase_none {deps : Dependencies} {dir : FsPath}
    (h : deps.fabricLoader = none) : fabricPhase deps dir = [] := by
  unfold fabricPhase
  rw [h]

theorem fabricPhase_some {deps : Dependencies} {dir : FsPath} {lv : String}
    (h : deps.fabricLoader = some lv) :
    fabricPhase deps dir =
      [Event.setStatus ("Installing Fabric " ++ lv ++ " for Minecraft " ++ deps.minecraft),
       Event.installFabric deps.minecraft dir lv] := by
  unfold fabricPhase
  rw [h]

theorem quiltPhase_none {deps : Dependencies} {dir : FsPath}
    (h : deps.quiltLoader = none) : quiltPhase deps dir = [] := by
  unfold quiltPhase
  rw [h]

theorem quiltPhase_some {deps : Dependencies} {dir : FsPath} {lv : String}
    (h : deps.quiltLoader = some lv) :
    quiltPhase deps dir =
      [Event.setStatus ("Installing Quilt " ++ lv ++ " for Minecraft " ++ deps.minecraft),
       Event.installQuilt deps.minecraft dir lv] := by
  unfold quiltPhase
  rw [h]

theorem mem_forgePhase {deps : Dependencies} {dir : FsPath} {head : String → Nat}
    {e : Event} (he : e ∈ (forgePhase deps dir head).fst) :
    (∃ u, e = Event.headRequest u) ∨ (∃ t, e = Event.setStatus t) ∨
      (∃ v, e = Event.installForge v dir) := by
  cases h : deps.forge with
  | none =>
    rw [forgePhase_none h] at he
    simp at he
  | some fv =>
    by_cases h1 : head (forgeMavenUrl (forgeCandidate1 deps fv)) = 200
    · rw [forgePhase_hit1 h h1] at he
      simp only [List.mem_cons, List.not_mem_nil, or_false] at he
      rcases he with rfl | rfl | rfl
      · exact Or.inl ⟨_, rfl⟩
      · exact Or.inr (Or.inl ⟨_, rfl⟩)
      · exact Or.inr (Or.inr ⟨_, rfl⟩)
    · by_cases h2 : head (forgeMavenUrl (forgeCandidate2 deps fv)) = 200
      · rw [forgePhase_hit2 h h1 h2] at he
        simp only [List.mem_cons, List.not_mem_nil, or_false] at he
        rcases he with rfl | rfl | rfl | rfl
        · exact Or.inl ⟨_, rfl⟩
        · exact Or.inl ⟨_, rfl⟩
        · exact Or.inr (Or.inl ⟨_, rfl⟩)
        · exact Or.inr (Or.inr ⟨_, rfl⟩)
      · rw [forgePhase_miss h h1 h2] at he
        simp only [List.mem_cons, List.not_mem_nil, or_false] at he
        rcases he with rfl | rfl
        · exact Or.inl ⟨_, rfl⟩
        · exact Or.inl ⟨_, rfl⟩

theorem mem_fabricPhase {deps : Dependencies} {dir : FsPath} {e : Event}
    (he : e ∈ fabricPhase deps dir) :
    (∃ t, e = Event.setStatus t) ∨ (∃ lv, e = Event.installFabric deps.minecraft dir lv) := by
  cases h : deps.fabricLoader with
  | none =>
    rw [fabricPhase_none h] at he
    simp at he
  | some lv =>
    rw [fabricPhase_some h] at he
    simp only [List.mem_cons, List.not_mem_nil, or_false] at he
    rcases he with rfl | rfl
    · exact Or.inl ⟨_, rfl⟩
    · exact Or.inr ⟨_, rfl⟩

theorem mem_quiltPhase {deps : Dependencies} {dir : FsPath} {e : Event}
    (he : e ∈ quiltPhase deps dir) :
    (∃ t, e = Event.setStatus t) ∨ (∃ lv, e = Event.installQuilt deps.minecraft dir lv) := by
  cases h : deps.quiltLoader with
  | none =>
    rw [quiltPhase_none h] at he
    simp at he
  | some lv =>
    rw [quiltPhase_some h] at he
    simp only [List.mem_cons, List.not_mem_nil, or_false] at he
    rcases he with rfl | rfl
    · exact Or.inl ⟨_, rfl⟩
    · exact Or.inr ⟨_, rfl⟩

theorem mem_depsPhase {deps : Dependencies} {dir : FsPath} {head : String → Nat}
    {e : Event} (he : e ∈ (depsPhase deps dir head).fst) :
    (∃ t, e = Event.setStatus t) ∨ (∃ u, e = Event.headRequest u) ∨
      (∃ v, e = Event.installMinecraft v dir) ∨ (∃ v, e = Event.installForge v dir) ∨
      (∃ lv, e = Event.installFabric deps.minecraft dir lv) ∨
      (∃ lv, e = Event.installQuilt deps.minecraft dir lv) := by
  unfold depsPhase at he
  rw [seqPhase_none rfl] at he
  unfold seqPhase at he
  rcases hf : (forgePhase deps dir head).snd with _ | err
  · rw [hf] at he
    simp only [List.mem_append, List.mem_cons, List.not_mem_nil, or_false] at he
    rcases he with (rfl | rfl) | hm | hm | hm
    · exact Or.inl ⟨_, rfl⟩
    · exact Or.inr (Or.inr (Or.inl ⟨_, rfl⟩))
    · rcases mem_forgePhase hm with ⟨u, rfl⟩ | ⟨t, rfl⟩ | ⟨v, rfl⟩
      · exact Or.inr (Or.inl ⟨_, rfl⟩)
      · exact Or.inl ⟨_, rfl⟩
      · exact Or.inr (Or.inr (Or.inr (Or.inl ⟨_, rfl⟩)))
    · rcases mem_fabricPhase hm with ⟨t, rfl⟩ | ⟨lv, rfl⟩
      · exact Or.inl ⟨_, rfl⟩
      · exact Or.inr (Or.inr (Or.inr (Or.inr (Or.inl ⟨_, rfl⟩))))
    · rcases mem_quiltPhase hm with ⟨t, rfl⟩ | ⟨lv, rfl⟩
      · exact Or.inl ⟨_, rfl⟩
      · exact Or.inr (Or.inr (Or.inr (Or.inr (Or.inr ⟨_, rfl⟩))))
  · rw [hf] at he
    simp only [List.mem_cons, List.mem_append, List.not_mem_nil, or_false] at he
    rcases he with (rfl | rfl) | hm
    · exact Or.inl ⟨_, rfl⟩
    · exact Or.inr (Or.inr (Or.inl ⟨_, rfl⟩))
    · rcases mem_forgePhase hm with ⟨u, rfl⟩ | ⟨t, rfl⟩ | ⟨v, rfl⟩
      · exact Or.inr (Or.inl ⟨_, rfl⟩)
      · exact Or.inl ⟨_, rfl⟩
      · exact Or.inr (Or.inr (Or.inr (Or.inl ⟨_, rfl⟩)))

theorem guardedFrom_append {md : FsPath} {a b : List Event}
    (h2 : ∀ c, guardedFrom md c b = true) :
    ∀ checked, guardedFrom md checked a = true → guardedFrom md checked (a ++ b) = true := by
  induction a with
  | nil =>
    intro checked _
    simpa using h2 checked
  | cons e rest ih =>
    intro checked h1
    cases e <;> simp only [guardedFrom, List.cons_append] at h1 ⊢
    case pathCheck => exact ih _ h1
    case download =>
      rw [Bool.and_eq_true] at h1 ⊢
      exact ⟨h1.1, ih _ h1.2⟩
    case writeFile =>
      rw [Bool.and_eq_true] at h1 ⊢
      exact ⟨h1.1, ih _ h1.2⟩
    all_goals exact ih _ h1

theorem guardedFrom_of_shapes {md : FsPath} {tr : List Event}
    (h : ∀ e ∈ tr, isDownloadEv e = false ∧ isWriteFileEv e = false) :
    ∀ checked, guardedFrom md checked tr = true := by
  induction tr with
  | nil =>
    intro checked
    rfl
  | cons e rest ih =>
    intro checked
    have he := h e (List.mem_cons_self e rest)
    have hrest : ∀ x ∈ rest, isDownloadEv x = false ∧ isWriteFileEv x = false :=
      fun x hx => h x (List.mem_cons_of_mem e hx)
    cases e <;> simp only [guardedFrom]
    case download => simp [isDownloadEv] at he
    case writeFile => simp [isWriteFileEv] at he
    all_goals exact ih hrest _

theorem guardedFrom_downloadLoop (md : FsPath) (c : Nat) (files : List MrpackFile) :
    ∀ checked, guardedFrom md checked (downloadLoop md c files).fst = true := by
  induction files generalizing c with
  | nil =>
    intro checked
    rfl
  | cons f rest ih =>
    intro checked
    by_cases h : check_path_inside_minecraft_directory md (absJoin md f.path) = true
    · rw [downloadLoop_cons_pos h]
      simp only [guardedFrom, if_pos rfl]
      rw [Bool.and_eq_true]
      refine ⟨by simp, ?_⟩
      exact ih (c + 1) _
    · rw [downloadLoop_cons_neg h]
      rfl

theorem guardedFrom_overrideLoop (md : FsPath) (entries : List ZipEntry) :
    ∀ checked, guardedFrom md checked (overrideLoop md entries).fst = true := by
  induction entries with
  | nil =>
    intro checked
    rfl
  | cons z rest ih =>
    intro checked
    by_cases hsel : overrideSelected z = true
    · by_cases h : check_path_inside_minecraft_directory md (overrideDest md z) = true
      · rw [overrideLoop_cons_pos hsel h]
        simp only [guardedFrom, if_pos rfl]
        rw [Bool.and_eq_true]
        refine ⟨by simp, ?_⟩
        exact ih _
      · rw [overrideLoop_cons_neg hsel h]
        rfl
    · rw [overrideLoop_cons_skip hsel]
      exact ih checked

theorem guardedFrom_depsPhase (md : FsPath) (deps : Dependencies) (dir : FsPath)
    (head : String → Nat) :
    ∀ checked, guardedFrom md checked (depsPhase deps dir head).fst = true := by
  refine guardedFrom_of_shapes ?_
  intro e he
  rcases mem_depsPhase he with ⟨t, rfl⟩ | ⟨u, rfl⟩ | ⟨v, rfl⟩ | ⟨v, rfl⟩ | ⟨lv, rfl⟩ | ⟨lv, rfl⟩ <;>
    exact ⟨rfl, rfl⟩

theorem writeEvents_downloadLoop (md : FsPath) (c : Nat) (files : List MrpackFile) :
    writeEvents (downloadLoop md c files).fst = [] := by
  rw [writeEvents, List.filterMap_eq_nil_iff]
  intro e he
  rcases mem_downloadLoop he with ⟨p, rfl⟩ | ⟨u, d, s, rfl⟩ | ⟨n, rfl⟩ <;> rfl

theorem makeDirsEvents_downloadLoop (md : FsPath) (c : Nat) (files : List MrpackFile) :
    makeDirsEvents (downloadLoop md c files).fst = [] := by
  rw [makeDirsEvents, List.filterMap_eq_nil_iff]
  intro e he
  rcases mem_downloadLoop he with ⟨p, rfl⟩ | ⟨u, d, s, rfl⟩ | ⟨n, rfl⟩ <;> rfl

theorem setMaxEvents_downloadLoop (md : FsPath) (c : Nat) (files : List MrpackFile) :
    setMaxEvents (downloadLoop md c files).fst = [] := by
  rw [setMaxEvents, List.filterMap_eq_nil_iff]
  intro e he
  rcases mem_downloadLoop he with ⟨p, rfl⟩ | ⟨u, d, s, rfl⟩ | ⟨n, rfl⟩ <;> rfl

theorem headEvents_downloadLoop (md : FsPath) (c : Nat) (files : List MrpackFile) :
    headEvents (downloadLoop md c files).fst = [] := by
  rw [headEvents, List.filterMap_eq_nil_iff]
  intro e he
  rcases mem_downloadLoop he with ⟨p, rfl⟩ | ⟨u, d, s, rfl⟩ | ⟨n, rfl⟩ <;> rfl

theorem forgeInstallEvents_downloadLoop (md : FsPath) (c : Nat) (files : List MrpackFile) :
    forgeInstallEvents (downloadLoop md c files).fst = [] := by
  rw [forgeInstallEvents, List.filterMap_eq_nil_iff]
  intro e he
  rcases mem_downloadLoop he with ⟨p, rfl⟩ | ⟨u, d, s, rfl⟩ | ⟨n, rfl⟩ <;> rfl

theorem depInstallDirs_downloadLoop (md : FsPath) (c : Nat) (files : List MrpackFile) :
    depInstallDirs (downloadLoop md c files).fst = [] := by
  rw [depInstallDirs, List.filterMap_eq_nil_iff]
  intro e he
  rcases mem_downloadLoop he with ⟨p, rfl⟩ | ⟨u, d, s, rfl⟩ | ⟨n, rfl⟩ <;> rfl

theorem loaderInstallEvents_downloadLoop (md : FsPath) (c : Nat) (files : List MrpackFile) :
    loaderInstallEvents (downloadLoop md c files).fst = [] := by
  rw [loaderInstallEvents, List.filter_eq_nil_iff]
  intro e he
  rcases mem_downloadLoop he with ⟨p, rfl⟩ | ⟨u, d, s, rfl⟩ | ⟨n, rfl⟩ <;> simp [isLoaderInstall]

theorem depInstallEvents_downloadLoop (md : FsPath) (c : Nat) (files : List MrpackFile) :
    depInstallEvents (downloadLoop md c files).fst = [] := by
  rw [depInstallEvents, List.filter_eq_nil_iff]
  intro e he
  rcases mem_downloadLoop he with ⟨p, rfl⟩ | ⟨u, d, s, rfl⟩ | ⟨n, rfl⟩ <;>
    simp [isDepInstall, isLoaderInstall]

theorem downloadEvents_overrideLoop (md : FsPath) (entries : List ZipEntry) :
    downloadEvents (overrideLoop md entries).fst = [] := by
  rw [downloadEvents, List.filterMap_eq_nil_iff]
  intro e he
  rcases mem_overrideLoop he with ⟨p, rfl⟩ | ⟨t, rfl⟩ | ⟨p, rfl⟩ | ⟨p, d, rfl⟩ <;> rfl

theorem setMaxEvents_overrideLoop (md : FsPath) (entries : List ZipEntry) :
    setMaxEvents (overrideLoop md entries).fst = [] := by
  rw [setMaxEvents, List.filterMap_eq_nil_iff]
  intro e he
  rcases mem_overrideLoop he with ⟨p, rfl⟩ | ⟨t, rfl⟩ | ⟨p, rfl⟩ | ⟨p, d, rfl⟩ <;> rfl

theorem setProgressEvents_overrideLoop (md : FsPath) (entries : List ZipEntry) :
    setProgressEvents (overrideLoop md entries).fst = [] := by
  rw [setProgressEvents, List.filterMap_eq_nil_iff]
  intro e he
  rcases mem_overrideLoop he with ⟨p, rfl⟩ | ⟨t, rfl⟩ | ⟨p, rfl⟩ | ⟨p, d, rfl⟩ <;> rfl

theorem headEvents_overrideLoop (md : FsPath) (entries : List ZipEntry) :
    headEvents (overrideLoop md entries).fst = [] := by
  rw [headEvents, List.filterMap_eq_nil_iff]
  intro e he
  rcases mem_overrideLoop he with ⟨p, rfl⟩ | ⟨t, rfl⟩ | ⟨p, rfl⟩ | ⟨p, d, rfl⟩ <;> rfl

theorem forgeInstallEvents_overrideLoop (md : FsPath) (entries : List ZipEntry) :
    forgeInstallEvents (overrideLoop md entries).fst = [] := by
  rw [forgeInstallEvents, List.filterMap_eq_nil_iff]
  intro e he
  rcases mem_overrideLoop he with ⟨p, rfl⟩ | ⟨t, rfl⟩ | ⟨p, rfl⟩ | ⟨p, d, rfl⟩ <;> rfl

theorem depInstallDirs_overrideLoop (md : FsPath) (entries : List ZipEntry) :
    depInstallDirs (overrideLoop md entries).fst = [] := by
  rw [depInstallDirs, List.filterMap_eq_nil_iff]
  intro e he
  rcases mem_overrideLoop he with ⟨p, rfl⟩ | ⟨t, rfl⟩ | ⟨p, rfl⟩ | ⟨p, d, rfl⟩ <;> rfl

theorem loaderInstallEvents_overrideLoop (md : FsPath) (entries : List ZipEntry) :
    loaderInstallEvents (overrideLoop md entries).fst = [] := by
  rw [loaderInstallEvents, List.filter_eq_nil_iff]
  intro e he
  rcases mem_overrideLoop he with ⟨p, rfl⟩ | ⟨t, rfl⟩ | ⟨p, rfl⟩ | ⟨p, d, rfl⟩ <;>
    simp [isLoaderInstall]

theorem depInstallEvents_overrideLoop (md : FsPath) (entries : List ZipEntry) :
    depInstallEvents (overrideLoop md entries).fst = [] := by
  rw [depInstallEvents, List.filter_eq_nil_iff]
  intro e he
  rcases mem_overrideLoop he with ⟨p, rfl⟩ | ⟨t, rfl⟩ | ⟨p, rfl⟩ | ⟨p, d, rfl⟩ <;>
    simp [isDepInstall, isLoaderInstall]

theorem downloadProgressEvents_overrideLoop (md : FsPath) (entries : List ZipEntry) :
    downloadProgressEvents (overrideLoop md entries).fst = [] := by
  rw [downloadProgressEvents, List.filter_eq_nil_iff]
  intro e he
  rcases mem_overrideLoop he with ⟨p, rfl⟩ | ⟨t, rfl⟩ | ⟨p, rfl⟩ | ⟨p, d, rfl⟩ <;>
    simp [isDownloadEv, isSetProgress]

theorem downloadEvents_depsPhase (deps : Dependencies) (dir : FsPath) (head : String → Nat) :
    downloadEvents (depsPhase deps dir head).fst = [] := by
  rw [downloadEvents, List.filterMap_eq_nil_iff]
  intro e he
  rcases mem_depsPhase he with ⟨t, rfl⟩ | ⟨u, rfl⟩ | ⟨v, rfl⟩ | ⟨v, rfl⟩ | ⟨lv, rfl⟩ | ⟨lv, rfl⟩ <;> rfl

theorem writeEvents_depsPhase (deps : Dependencies) (dir : FsPath) (head : String → Nat) :
    writeEvents (depsPhase deps dir head).fst = [] := by
  rw [writeEvents, List.filterMap_eq_nil_iff]
  intro e he
  rcases mem_depsPhase he with ⟨t, rfl⟩ | ⟨u, rfl⟩ | ⟨v, rfl⟩ | ⟨v, rfl⟩ | ⟨lv, rfl⟩ | ⟨lv, rfl⟩ <;> rfl

theorem makeDirsEvents_depsPhase (deps : Dependencies) (dir : FsPath) (head : String → Nat) :
    makeDirsEvents (depsPhase deps dir head).fst = [] := by
  rw [makeDirsEvents, List.filterMap_eq_nil_iff]
  intro e he
  rcases mem_depsPhase he with ⟨t, rfl⟩ | ⟨u, rfl⟩ | ⟨v, rfl⟩ | ⟨v, rfl⟩ | ⟨lv, rfl⟩ | ⟨lv, rfl⟩ <;> rfl

theorem setMaxEvents_depsPhase (deps : Dependencies) (dir : FsPath) (head : String → Nat) :
    setMaxEvents (depsPhase deps dir head).fst = [] := by
  rw [setMaxEvents, List.filterMap_eq_nil_iff]
  intro e he
  rcases mem_depsPhase he with ⟨t, rfl⟩ | ⟨u, rfl⟩ | ⟨v, rfl⟩ | ⟨v, rfl⟩ | ⟨lv, rfl⟩ | ⟨lv, rfl⟩ <;> rfl

theorem setProgressEvents_depsPhase (deps : Dependencies) (dir : FsPath) (head : String → Nat) :
    setProgressEvents (depsPhase deps dir head).fst = [] := by
  rw [setProgressEvents, List.filterMap_eq_nil_iff]
  intro e he
  rcases mem_depsPhase he with ⟨t, rfl⟩ | ⟨u, rfl⟩ | ⟨v, rfl⟩ | ⟨v, rfl⟩ | ⟨lv, rfl⟩ | ⟨lv, rfl⟩ <;> rfl

theorem pathCheckEvents_depsPhase (deps : Dependencies) (dir : FsPath) (head : String → Nat) :
    pathCheckEvents (depsPhase deps dir head).fst = [] := by
  rw [pathCheckEvents, List.filterMap_eq_nil_iff]
  intro e he
  rcases mem_depsPhase he with ⟨t, rfl⟩ | ⟨u, rfl⟩ | ⟨v, rfl⟩ | ⟨v, rfl⟩ | ⟨lv, rfl⟩ | ⟨lv, rfl⟩ <;> rfl

theorem downloadProgressEvents_depsPhase (deps : Dependencies) (dir : FsPath) (head : String → Nat) :
    downloadProgressEvents (depsPhase deps dir head).fst = [] := by
  rw [downloadProgressEvents, List.filter_eq_nil_iff]
  intro e he
  rcases mem_depsPhase he with ⟨t, rfl⟩ | ⟨u, rfl⟩ | ⟨v, rfl⟩ | ⟨v, rfl⟩ | ⟨lv, rfl⟩ | ⟨lv, rfl⟩ <;>
    simp [isDownloadEv, isSetProgress]

theorem depInstallDirs_depsPhase {deps : Dependencies} {dir : FsPath} {head : String → Nat}
    {d : FsPath} (hd : d ∈ depInstallDirs (depsPhase deps dir head).fst) : d = dir := by
  rw [depInstallDirs, List.mem_filterMap] at hd
  obtain ⟨e, he, hfe⟩ := hd
  rcases mem_depsPhase he with ⟨t, rfl⟩ | ⟨u, rfl⟩ | ⟨v, rfl⟩ | ⟨v, rfl⟩ | ⟨lv, rfl⟩ | ⟨lv, rfl⟩ <;>
    simp at hfe <;> exact hfe.symm

theorem downloadEvents_downloadLoop_of_none {md : FsPath} {files : List MrpackFile}
    {c : Nat} (h : (downloadLoop md c files).snd = none) :
    downloadEvents (downloadLoop md c files).fst =
      files.map fun f => (f.downloads.headD "", absJoin md f.path, f.sha1) := by
  induction files generalizing c with
  | nil => rfl
  | cons f rest ih =>
    by_cases hc : check_path_inside_minecraft_directory md (absJoin md f.path) = true
    · rw [downloadLoop_cons_pos hc] at h ⊢
      show (f.downloads.headD "", absJoin md f.path, f.sha1) ::
          downloadEvents (downloadLoop md (c + 1) rest).fst = _
      rw [List.map_cons, ih h]
    · rw [downloadLoop_cons_neg hc] at h
      simp at h

theorem downloadEvents_downloadLoop_isPre (md : FsPath) (c : Nat)
    (files : List MrpackFile) :
    downloadEvents (downloadLoop md c files).fst <+:
      files.map fun f => (f.downloads.headD "", absJoin md f.path, f.sha1) := by
  induction files generalizing c with
  | nil => exact List.nil_prefix
  | cons f rest ih =>
    by_cases hc : check_path_inside_minecraft_directory md (absJoin md f.path) = true
    · rw [downloadLoop_cons_pos hc]
      show (f.downloads.headD "", absJoin md f.path, f.sha1) ::
          downloadEvents (downloadLoop md (c + 1) rest).fst <+: _
      rw [List.map_cons]
      exact List.cons_prefix_cons.mpr ⟨rfl, ih (c + 1)⟩
    · rw [downloadLoop_cons_neg hc]
      show ([] : List (String × FsPath × String)) <+: _
      exact List.nil_prefix

theorem setProgressEvents_downloadLoop_of_none {md : FsPath} {files : List MrpackFile}
    {c : Nat} (h : (downloadLoop md c files).snd = none) :
    setProgressEvents (downloadLoop md c files).fst =
      List.range' (c + 1) files.length := by
  induction files generalizing c with
  | nil => rfl
  | cons f rest ih =>
    by_cases hc : check_path_inside_minecraft_directory md (absJoin md f.path) = true
    · rw [downloadLoop_cons_pos hc] at h ⊢
      show (c + 1) :: setProgressEvents (downloadLoop md (c + 1) rest).fst = _
      rw [List.length_cons, List.range'_succ, ih h]
    · rw [downloadLoop_cons_neg hc] at h
      simp at h

theorem downloadProgressEvents_downloadLoop_of_none {md : FsPath}
    {files : List MrpackFile} {c : Nat} (h : (downloadLoop md c files).snd = none) :
    downloadProgressEvents (downloadLoop md c files).fst =
      expectedDownloadTrace md c files := by
  induction files generalizing c with
  | nil => rfl
  | cons f rest ih =>
    by_cases hc : check_path_inside_minecraft_directory md (absJoin md f.path) = true
    · rw [downloadLoop_cons_pos hc] at h ⊢
      show Event.download (f.downloads.headD "") (absJoin md f.path) f.sha1 ::
          Event.setProgress (c + 1) ::
          downloadProgressEvents (downloadLoop md (c + 1) rest).fst = _
      rw [expectedDownloadTrace, ih h]
    · rw [downloadLoop_cons_neg hc] at h
      simp at h

theorem pathCheck_base_downloadLoop {md : FsPath} {c : Nat} {files : List MrpackFile}
    {pr : FsPath × FsPath} (h : pr ∈ pathCheckEvents (downloadLoop md c files).fst) :
    pr.fst = md := by
  rw [pathCheckEvents, List.mem_filterMap] at h
  obtain ⟨e, he, hfe⟩ := h
  rcases mem_downloadLoop he with ⟨p, rfl⟩ | ⟨u, d, s, rfl⟩ | ⟨n, rfl⟩
  · simp at hfe
    rw [← hfe]
  · simp at hfe
  · simp at hfe

theorem writeEvents_overrideLoop_of_none {md : FsPath} {entries : List ZipEntry}
    (h : (overrideLoop md entries).snd = none) :
    writeEvents (overrideLoop md entries).fst =
      (entries.filter overrideSelected).map fun e => (overrideDest md e, e.data) := by
  induction entries with
  | nil => rfl
  | cons z rest ih =>
    by_cases hsel : overrideSelected z = true
    · by_cases hc : check_path_inside_minecraft_directory md (overrideDest md z) = true
      · rw [overrideLoop_cons_pos hsel hc] at h ⊢
        show (overrideDest md z, z.data) :: writeEvents (overrideLoop md rest).fst = _
        rw [List.filter_cons_of_pos hsel, List.map_cons, ih h]
      · rw [overrideLoop_cons_neg hsel hc] at h
        simp at h
    · rw [overrideLoop_cons_skip hsel] at h ⊢
      rw [List.filter_cons_of_neg hsel, ih h]

theorem writeEvents_overrideLoop_isPre (md : FsPath) (entries : List ZipEntry) :
    writeEvents (overrideLoop md entries).fst <+:
      (entries.filter overrideSelected).map fun e => (overrideDest md e, e.data) := by
  induction entries with
  | nil => exact List.nil_prefix
  | cons z rest ih =>
    by_cases hsel : overrideSelected z = true
    · by_cases hc : check_path_inside_minecraft_directory md (overrideDest md z) = true
      · rw [overrideLoop_cons_pos hsel hc]
        show (overrideDest md z, z.data) :: writeEvents (overrideLoop md rest).fst <+: _
        rw [List.filter_cons_of_pos hsel, List.map_cons]
        exact List.cons_prefix_cons.mpr ⟨rfl, ih⟩
      · rw [overrideLoop_cons_neg hsel hc]
        show ([] : List (FsPath × List Nat)) <+: _
        exact List.nil_prefix
    · rw [overrideLoop_cons_skip hsel, List.filter_cons_of_neg hsel]
      exact ih

theorem makeDirsEvents_overrideLoop_of_none {md : FsPath} {entries : List ZipEntry}
    (h : (overrideLoop md entries).snd = none) :
    makeDirsEvents (overrideLoop md entries).fst =
      (entries.filter overrideSelected).map fun e => (overrideDest md e).dropLast := by
  induction entries with
  | nil => rfl
  | cons z rest ih =>
    by_cases hsel : overrideSelected z = true
    · by_cases hc : check_path_inside_minecraft_directory md (overrideDest md z) = true
      · rw [overrideLoop_cons_pos hsel hc] at h ⊢
        show (overrideDest md z).dropLast :: makeDirsEvents (overrideLoop md rest).fst = _
        rw [List.filter_cons_of_pos hsel, List.map_cons, ih h]
      · rw [overrideLoop_cons_neg hsel hc] at h
        simp at h
    · rw [overrideLoop_cons_skip hsel] at h ⊢
      rw [List.filter_cons_of_neg hsel, ih h]

theorem checksPass_overrideLoop_of_none {md : FsPath} {entries : List ZipEntry}
    (h : (overrideLoop md entries).snd = none) :
    ((entries.filter overrideSelected).all fun e =>
      check_path_inside_minecraft_directory md (overrideDest md e)) = true := by
  induction entries with
  | nil => rfl
  | cons z rest ih =>
    by_cases hsel : overrideSelected z = true
    · by_cases hc : check_path_inside_minecraft_directory md (overrideDest md z) = true
      · rw [overrideLoop_cons_pos hsel hc] at h
        rw [List.filter_cons_of_pos hsel, List.all_cons, hc, Bool.true_and]
        exact ih h
      · rw [overrideLoop_cons_neg hsel hc] at h
        simp at h
    · rw [overrideLoop_cons_skip hsel] at h
      rw [List.filter_cons_of_neg hsel]
      exact ih h

theorem pathCheck_base_overrideLoop {md : FsPath} {entries : List ZipEntry}
    {pr : FsPath × FsPath} (h : pr ∈ pathCheckEvents (overrideLoop md entries).fst) :
    pr.fst = md := by
  rw [pathCheckEvents, List.mem_filterMap] at h
  obtain ⟨e, he, hfe⟩ := h
  rcases mem_overrideLoop he with ⟨p, rfl⟩ | ⟨t, rfl⟩ | ⟨p, rfl⟩ | ⟨p, d, rfl⟩
  · simp at hfe
    rw [← hfe]
  · simp at hfe
  · simp at hfe
  · simp at hfe

theorem depsPhase_eq_of_forge_none {deps : Dependencies} {dir : FsPath}
    {head : String → Nat} (hf : (forgePhase deps dir head).snd = none) :
    depsPhase deps dir head =
      (Event.setStatus ("Installing Minecraft " ++ deps.minecraft) ::
       Event.installMinecraft deps.minecraft dir ::
       ((forgePhase deps dir head).fst ++ (fabricPhase deps dir ++ quiltPhase deps dir)),
       none) := by
  simp only [depsPhase, seqPhase, hf]
  rfl

theorem depsPhase_eq_of_forge_err {deps : Dependencies} {dir : FsPath}
    {head : String → Nat} {e : InstallError}
    (hf : (forgePhase deps dir head).snd = some e) :
    depsPhase deps dir head =
      (Event.setStatus ("Installing Minecraft " ++ deps.minecraft) ::
       Event.installMinecraft deps.minecraft dir :: (forgePhase deps dir head).fst,
       some e) := by
  simp only [depsPhase, seqPhase, hf]
  rfl

theorem install_mrpack_parts (index : MrpackIndex) (zipEntries : List ZipEntry)
    (mcd : FsPath) (mpd : Option FsPath) (head : String → Nat)
    (opts : MrpackInstallOptions)
    (hdl : (downloadLoop (modpackDir mcd mpd) 0
      (_filter_mrpack_files index.files opts)).snd = none)
    (hov : (overrideLoop (modpackDir mcd mpd) zipEntries).snd = none) :
    install_mrpack index zipEntries mcd mpd head opts =
      ((Event.setStatus "Download mrpack files" ::
        Event.setMax (_filter_mrpack_files index.files opts).length ::
        (downloadLoop (modpackDir mcd mpd) 0 (_filter_mrpack_files index.files opts)).fst) ++
       ((Event.setStatus "Extract overrides" ::
         (overrideLoop (modpackDir mcd mpd) zipEntries).fst) ++
        (if opts.skipDependenciesInstall.getD false then ([], none)
         else depsPhase index.dependencies mcd head).fst),
       (if opts.skipDependenciesInstall.getD false then
          (([], none) : List Event × Option InstallError)
        else depsPhase index.dependencies mcd head).snd) := by
  rw [install_mrpack_eq, downloadPhase_eq, overridePhase_eq]
  simp only [seqPhase, hdl, hov]

theorem install_phases_ok {index : MrpackIndex} {zipEntries : List ZipEntry}
    {mcd : FsPath} {mpd : Option FsPath} {head : String → Nat}
    {opts : MrpackInstallOptions}
    (hp : isPathError (install_mrpack index zipEntries mcd mpd head opts).snd = false) :
    (downloadLoop (modpackDir mcd mpd) 0
      (_filter_mrpack_files index.files opts)).snd = none ∧
      (overrideLoop (modpackDir mcd mpd) zipEntries).snd = none := by
  rw [install_mrpack_eq, downloadPhase_eq, overridePhase_eq] at hp
  rcases downloadLoop_snd (modpackDir mcd mpd) 0 (_filter_mrpack_files index.files opts)
    with hdl | ⟨p, hdl⟩
  · rcases overrideLoop_snd (modpackDir mcd mpd) zipEntries with hov | ⟨q, hov⟩
    · exact ⟨hdl, hov⟩
    · exfalso
      simp only [seqPhase, hdl, hov, isPathError] at hp
      exact absurd hp (by decide)
  · exfalso
    simp only [seqPhase, hdl, isPathError] at hp
    exact absurd hp (by decide)

@[simp] theorem downloadEvents_append (a b : List Event) :
    downloadEvents (a ++ b) = downloadEvents a ++ downloadEvents b :=
  List.filterMap_append a b _

@[simp] theorem writeEvents_append (a b : List Event) :
    writeEvents (a ++ b) = writeEvents a ++ writeEvents b :=
  List.filterMap_append a b _

@[simp] theorem makeDirsEvents_append (a b : List Event) :
    makeDirsEvents (a ++ b) = makeDirsEvents a ++ makeDirsEvents b :=
  List.filterMap_append a b _

@[simp] theorem setMaxEvents_append (a b : List Event) :
    setMaxEvents (a ++ b) = setMaxEvents a ++ setMaxEvents b :=
  List.filterMap_append a b _

@[simp] theorem setProgressEvents_append (a b : List Event) :
    setProgressEvents (a ++ b) = setProgressEvents a ++ setProgressEvents b :=
  List.filterMap_append a b _

@[simp] theorem headEvents_append (a b : List Event) :
    headEvents (a ++ b) = headEvents a ++ headEvents b :=
  List.filterMap_append a b _

@[simp] theorem forgeInstallEvents_append (a b : List Event) :
    forgeInstallEvents (a ++ b) = forgeInstallEvents a ++ forgeInstallEvents b :=
  List.filterMap_append a b _

@[simp] theorem pathCheckEvents_append (a b : List Event) :
    pathCheckEvents (a ++ b) = pathCheckEvents a ++ pathCheckEvents b :=
  List.filterMap_append a b _

@[simp] theorem depInstallDirs_append (a b : List Event) :
    depInstallDirs (a ++ b) = depInstallDirs a ++ depInstallDirs b :=
  List.filterMap_append a b _

@[simp] theorem loaderInstallEvents_append (a b : List Event) :
    loaderInstallEvents (a ++ b) = loaderInstallEvents a ++ loaderInstallEvents b :=
  List.filter_append a b

@[simp] theorem depInstallEvents_append (a b : List Event) :
    depInstallEvents (a ++ b) = depInstallEvents a ++ depInstallEvents b :=
  List.filter_append a b

@[simp] theorem downloadProgressEvents_append (a b : List Event) :
    downloadProgressEvents (a ++ b) = downloadProgressEvents a ++ downloadProgressEvents b :=
  List.filter_append a b

@[simp] theorem downloadEvents_cons_status (t : String) (tr : List Event) :
    downloadEvents (Event.setStatus t :: tr) = downloadEvents tr := rfl

@[simp] theorem downloadEvents_cons_max (n : Nat) (tr : List Event) :
    downloadEvents (Event.setMax n :: tr) = downloadEvents tr := rfl

@[simp] theorem downloadEvents_cons_mc (v : String) (d : FsPath) (tr : List Event) :
    downloadEvents (Event.installMinecraft v d :: tr) = downloadEvents tr := rfl

@[simp] theorem writeEvents_cons_status (t : String) (tr : List Event) :
    writeEvents (Event.setStatus t :: tr) = writeEvents tr := rfl

@[simp] theorem writeEvents_cons_max (n : Nat) (tr : List Event) :
    writeEvents (Event.setMax n :: tr) = writeEvents tr := rfl

@[simp] theorem writeEvents_cons_mc (v : String) (d : FsPath) (tr : List Event) :
    writeEvents (Event.installMinecraft v d :: tr) = writeEvents tr := rfl

@[simp] theorem makeDirsEvents_cons_status (t : String) (tr : List Event) :
    makeDirsEvents (Event.setStatus t :: tr) = makeDirsEvents tr := rfl

@[simp] theorem makeDirsEvents_cons_max (n : Nat) (tr : List Event) :
    makeDirsEvents (Event.setMax n :: tr) = makeDirsEvents tr := rfl

@[simp] theorem makeDirsEvents_cons_mc (v : String) (d : FsPath) (tr : List Event) :
    makeDirsEvents (Event.installMinecraft v d :: tr) = makeDirsEvents tr := rfl

@[simp] theorem setMaxEvents_cons_status (t : String) (tr : List Event) :
    setMaxEvents (Event.setStatus t :: tr) = setMaxEvents tr := rfl

@[simp] theorem setMaxEvents_cons_mc (v : String) (d : FsPath) (tr : List Event) :
    setMaxEvents (Event.installMinecraft v d :: tr) = setMaxEvents tr := rfl

@[simp] theorem setProgressEvents_cons_status (t : String) (tr : List Event) :
    setProgressEvents (Event.setStatus t :: tr) = setProgressEvents tr := rfl

@[simp] theorem setProgressEvents_cons_max (n : Nat) (tr : List Event) :
    setProgressEvents (Event.setMax n :: tr) = setProgressEvents tr := rfl

@[simp] theorem setProgressEvents_cons_mc (v : String) (d : FsPath) (tr : List Event) :
    setProgressEvents (Event.installMinecraft v d :: tr) = setProgressEvents tr := rfl

@[simp] theorem headEvents_cons_status (t : String) (tr : List Event) :
    headEvents (Event.setStatus t :: tr) = headEvents tr := rfl

@[simp] theorem headEvents_cons_max (n : Nat) (tr : List Event) :
    headEvents (Event.setMax n :: tr) = headEvents tr := rfl

@[simp] theorem headEvents_cons_mc (v : String) (d : FsPath) (tr : List Event) :
    headEvents (Event.installMinecraft v d :: tr) = headEvents tr := rfl

@[simp] theorem forgeInstallEvents_cons_status (t : String) (tr : List Event) :
    forgeInstallEvents (Event.setStatus t :: tr) = forgeInstallEvents tr := rfl

@[simp] theorem forgeInstallEvents_cons_max (n : Nat) (tr : List Event) :
    forgeInstallEvents (Event.setMax n :: tr) = forgeInstallEvents tr := rfl

@[simp] theorem forgeInstallEvents_cons_mc (v : String) (d : FsPath) (tr : List Event) :
    forgeInstallEvents (Event.installMinecraft v d :: tr) = forgeInstallEvents tr := rfl

@[simp] theorem pathCheckEvents_cons_status (t : String) (tr : List Event) :
    pathCheckEvents (Event.setStatus t :: tr) = pathCheckEvents tr := rfl

@[simp] theorem pathCheckEvents_cons_max (n : Nat) (tr : List Event) :
    pathCheckEvents (Event.setMax n :: tr) = pathCheckEvents tr := rfl

@[simp] theorem pathCheckEvents_cons_mc (v : String) (d : FsPath) (tr : List Event) :
    pathCheckEvents (Event.installMinecraft v d :: tr) = pathCheckEvents tr := rfl

@[simp] theorem depInstallDirs_cons_status (t : String) (tr : List Event) :
    depInstallDirs (Event.setStatus t :: tr) = depInstallDirs tr := rfl

@[simp] theorem depInstallDirs_cons_max (n : Nat) (tr : List Event) :
    depInstallDirs (Event.setMax n :: tr) = depInstallDirs tr := rfl

@[simp] theorem loaderInstallEvents_cons_status (t : String) (tr : List Event) :
    loaderInstallEvents (Event.setStatus t :: tr) = loaderInstallEvents tr := rfl

@[simp] theorem loaderInstallEvents_cons_max (n : Nat) (tr : List Event) :
    loaderInstallEvents (Event.setMax n :: tr) = loaderInstallEvents tr := rfl

@[simp] theorem loaderInstallEvents_cons_mc (v : String) (d : FsPath) (tr : List Event) :
    loaderInstallEvents (Event.installMinecraft v d :: tr) = loaderInstallEvents tr := rfl

@[simp] theorem depInstallEvents_cons_status (t : String) (tr : List Event) :
    depInstallEvents (Event.setStatus t :: tr) = depInstallEvents tr := rfl

@[simp] theorem depInstallEvents_cons_max (n : Nat) (tr : List Event) :
    depInstallEvents (Event.setMax n :: tr) = depInstallEvents tr := rfl

@[simp] theorem downloadProgressEvents_cons_status (t : String) (tr : List Event) :
    downloadProgressEvents (Event.setStatus t :: tr) = downloadProgressEvents tr := rfl

@[simp] theorem downloadProgressEvents_cons_max (n : Nat) (tr : List Event) :
    downloadProgressEvents (Event.setMax n :: tr) = downloadProgressEvents tr := rfl

@[simp] theorem downloadProgressEvents_cons_mc (v : String) (d : FsPath) (tr : List Event) :
    downloadProgressEvents (Event.installMinecraft v d :: tr) = downloadProgressEvents tr := rfl

@[simp] theorem setMaxEvents_cons_max (n : Nat) (tr : List Event) :
    setMaxEvents (Event.setMax n :: tr) = n :: setMaxEvents tr := rfl

@[simp] theorem depInstallDirs_cons_mc (v : String) (d : FsPath) (tr : List Event) :
    depInstallDirs (Event.installMinecraft v d :: tr) = d :: depInstallDirs tr := rfl

@[simp] theorem depInstallEvents_cons_mc (v : String) (d : FsPath) (tr : List Event) :
    depInstallEvents (Event.installMinecraft v d :: tr) =
      Event.installMinecraft v d :: depInstallEvents tr := rfl

@[simp] theorem guardedFrom_cons_status (md : FsPath) (c : List FsPath) (t : String)
    (tr : List Event) : guardedFrom md c (Event.setStatus t :: tr) = guardedFrom md c tr := rfl

@[simp] theorem guardedFrom_cons_max (md : FsPath) (c : List FsPath) (n : Nat)
    (tr : List Event) : guardedFrom md c (Event.setMax n :: tr) = guardedFrom md c tr := rfl

theorem install_mrpack_dl_err (index : MrpackIndex) (zipEntries : List ZipEntry)
    (mcd : FsPath) (mpd : Option FsPath) (head : String → Nat)
    (opts : MrpackInstallOptions) {e : InstallError}
    (hdl : (downloadLoop (modpackDir mcd mpd) 0
      (_filter_mrpack_files index.files opts)).snd = some e) :
    install_mrpack index zipEntries mcd mpd head opts =
      (Event.setStatus "Download mrpack files" ::
       Event.setMax (_filter_mrpack_files index.files opts).length ::
       (downloadLoop (modpackDir mcd mpd) 0 (_filter_mrpack_files index.files opts)).fst,
       some e) := by
  rw [install_mrpack_eq, downloadPhase_eq, overridePhase_eq]
  simp only [seqPhase, hdl]

theorem install_mrpack_ov_err (index : MrpackIndex) (zipEntries : List ZipEntry)
    (mcd : FsPath) (mpd : Option FsPath) (head : String → Nat)
    (opts : MrpackInstallOptions) {e : InstallError}
    (hdl : (downloadLoop (modpackDir mcd mpd) 0
      (_filter_mrpack_files index.files opts)).snd = none)
    (hov : (overrideLoop (modpackDir mcd mpd) zipEntries).snd = some e) :
    install_mrpack index zipEntries mcd mpd head opts =
      ((Event.setStatus "Download mrpack files" ::
        Event.setMax (_filter_mrpack_files index.files opts).length ::
        (downloadLoop (modpackDir mcd mpd) 0 (_filter_mrpack_files index.files opts)).fst) ++
       (Event.setStatus "Extract overrides" ::
        (overrideLoop (modpackDir mcd mpd) zipEntries).fst),
       some e) := by
  rw [install_mrpack_eq, downloadPhase_eq, overridePhase_eq]
  simp only [seqPhase, hdl, hov]

/-- C1: in every call to `install_mrpack`, each write target — every
downloaded modpack file destination and every extracted override
destination — has been passed through
`check_path_inside_minecraft_directory` against the modpack directory
earlier in the trace than the download or write event of that entry
(`guardedFrom` scans the trace for exactly this); and on the spec's
scenario — a manifest file with path `../../escape.txt` — the call fails
with the path-escape error and no download event (no network call) occurs
at all. -/
theorem C1_guard_before_io :
    (∀ (index : MrpackIndex) (zipEntries : List ZipEntry) (mcd : FsPath)
       (mpd : Option FsPath) (head : String → Nat) (opts : MrpackInstallOptions),
      guardedFrom (modpackDir mcd mpd) []
        (install_mrpack index zipEntries mcd mpd head opts).fst = true) ∧
    (install_mrpack escapeIndex [] mcDirFix none (fun _ => 404) noOptions).snd =
      some (InstallError.pathEscapesRoot ["home", "escape.txt"]) ∧
    downloadEvents
      (install_mrpack escapeIndex [] mcDirFix none (fun _ => 404) noOptions).fst = [] := by
  refine ⟨?_, rfl, rfl⟩
  intro index zipEntries mcd mpd head opts
  rcases downloadLoop_snd (modpackDir mcd mpd) 0 (_filter_mrpack_files index.files opts)
    with hdl | ⟨p, hdl⟩
  · rcases overrideLoop_snd (modpackDir mcd mpd) zipEntries with hov | ⟨q, hov⟩
    · rw [install_mrpack_parts index zipEntries mcd mpd head opts hdl hov]
      simp only [List.cons_append, guardedFrom_cons_status, guardedFrom_cons_max]
      refine guardedFrom_append ?_ [] (guardedFrom_downloadLoop _ _ _ [])
      intro c
      rw [guardedFrom_cons_status]
      refine guardedFrom_append ?_ c (guardedFrom_overrideLoop _ _ c)
      intro c2
      cases hskip : opts.skipDependenciesInstall.getD false
      · exact guardedFrom_depsPhase _ _ _ _ c2
      · rfl
    · rw [install_mrpack_ov_err index zipEntries mcd mpd head opts hdl hov]
      simp only [List.cons_append, guardedFrom_cons_status, guardedFrom_cons_max]
      refine guardedFrom_append ?_ [] (guardedFrom_downloadLoop _ _ _ [])
      intro c
      rw [guardedFrom_cons_status]
      exact guardedFrom_overrideLoop _ _ c
  · rw [install_mrpack_dl_err index zipEntries mcd mpd head opts hdl]
    simp only [guardedFrom_cons_status, guardedFrom_cons_max]
    exact guardedFrom_downloadLoop _ _ _ []

theorem filter_mrpack_eq_filter (opts : MrpackInstallOptions) (l : List MrpackFile) :
    _filter_mrpack_files l opts = l.filter (mrpackFileIncluded opts) := by
  have hro : ¬ (("required" : String) = "optional") := by decide
  induction l with
  | nil => rfl
  | cons f rest ih =>
    cases hf : f.env with
    | none => simp [_filter_mrpack_files, hf, mrpackFileIncluded, List.filter_cons, ih]
    | some client =>
      by_cases h1 : client = "required"
      · subst h1
        simp [_filter_mrpack_files, hf, mrpackFileIncluded, List.filter_cons, ih, hro]
      · by_cases h2 : client = "optional"
        · subst h2
          by_cases h3 : f.path ∈ opts.optionalFiles.getD []
          · simp [_filter_mrpack_files, hf, mrpackFileIncluded, List.filter_cons, ih, h3, hro]
          · simp [_filter_mrpack_files, hf, mrpackFileIncluded, List.filter_cons, ih, h3, hro]
        · simp [_filter_mrpack_files, hf, mrpackFileIncluded, List.filter_cons, ih, h1, h2]

/-- C2: `_filter_mrpack_files` returns exactly the entries with no `env`
key, plus those with `env.client == "required"`, plus those with
`env.client == "optional"` whose path is in the options'
`optionalFiles` list (default empty): it equals `List.filter` of that
per-entry rule, membership is exactly as described, every included entry
keeps its multiplicity (appears exactly once per manifest occurrence,
excluded entries zero times), and the output is a sublist of the input,
so manifest order is preserved. -/
theorem C2_filter_mrpack_files :
    ∀ (file_list : List MrpackFile) (mrpack_install_options : MrpackInstallOptions),
      _filter_mrpack_files file_list mrpack_install_options =
        file_list.filter (mrpackFileIncluded mrpack_install_options) ∧
      (∀ f : MrpackFile, f ∈ _filter_mrpack_files file_list mrpack_install_options ↔
        f ∈ file_list ∧ mrpackFileIncluded mrpack_install_options f = true) ∧
      (∀ f : MrpackFile, (_filter_mrpack_files file_list mrpack_install_options).count f =
        if mrpackFileIncluded mrpack_install_options f = true then file_list.count f
        else 0) ∧
      (_filter_mrpack_files file_list mrpack_install_options).Sublist file_list := by
  intro l opts
  have he := filter_mrpack_eq_filter opts l
  refine ⟨he, ?_, ?_, ?_⟩
  · intro f
    rw [he, List.mem_filter]
  · intro f
    rw [he]
    by_cases h : mrpackFileIncluded opts f = true
    · rw [if_pos h, List.count_filter h]
    · rw [if_neg h, List.count_eq_zero]
      intro hf
      exact h (List.mem_filter.mp hf).2
  · rw [he]
    exact List.filter_sublist l

/-- C5: `get_mrpack_launch_version` produces `"<mc>-forge-<forge>"` when
`forge` is declared, `"fabric-loader-<loader>-<mc>"` when `fabric-loader`
is the highest declared loader, `"quilt-loader-<loader>-<mc>"` when
`quilt-loader` is the highest declared loader, and the bare minecraft
version when no loader key is declared; in particular the spec's scenario
`{"minecraft": "1.20.1", "fabric-loader": "0.15.0"}` yields
`"fabric-loader-0.15.0-1.20.1"`. -/
theorem C5_launch_version_formats :
    (∀ (index : MrpackIndex) (fv : String), index.dependencies.forge = some fv →
      get_mrpack_launch_version index =
        index.dependencies.minecraft ++ "-forge-" ++ fv) ∧
    (∀ (index : MrpackIndex) (lv : String), index.dependencies.forge = none →
      index.dependencies.fabricLoader = some lv →
      get_mrpack_launch_version index =
        "fabric-loader-" ++ lv ++ "-" ++ index.dependencies.minecraft) ∧
    (∀ (index : MrpackIndex) (lv : String), index.dependencies.forge = none →
      index.dependencies.fabricLoader = none →
      index.dependencies.quiltLoader = some lv →
      get_mrpack_launch_version index =
        "quilt-loader-" ++ lv ++ "-" ++ index.dependencies.minecraft) ∧
    (∀ index : MrpackIndex, index.dependencies.forge = none →
      index.dependencies.fabricLoader = none →
      index.dependencies.quiltLoader = none →
      get_mrpack_launch_version index = index.dependencies.minecraft) ∧
    get_mrpack_launch_version fabricScenarioIndex = "fabric-loader-0.15.0-1.20.1" := by
  refine ⟨?_, ?_, ?_, ?_, rfl⟩
  · intro index fv h
    simp [get_mrpack_launch_version, h]
  · intro index lv h1 h2
    simp [get_mrpack_launch_version, h1, h2]
  · intro index lv h1 h2 h3
    simp [get_mrpack_launch_version, h1, h2, h3]
  · intro index h1 h2 h3
    simp [get_mrpack_launch_version, h1, h2, h3]

/-- Witness for C5: the spec's fabric scenario, through the second
conjunct. -/
theorem C5_launch_version_formats_witness :
    get_mrpack_launch_version fabricScenarioIndex =
      "fabric-loader-" ++ "0.15.0" ++ "-" ++ "1.20.1" :=
  C5_launch_version_formats.2.1 fabricScenarioIndex "0.15.0" rfl rfl

/-- C10: when several loader keys are declared,
`get_mrpack_launch_version` resolves them by fixed precedence — `forge`
beats `fabric-loader`, which beats `quilt-loader` — computing the version
string from the highest-precedence key and ignoring the rest. -/
theorem C10_launch_version_precedence :
    (∀ (index : MrpackIndex) (fv : String), index.dependencies.forge = some fv →
      (¬ index.dependencies.fabricLoader = none ∨
       ¬ index.dependencies.quiltLoader = none) →
      get_mrpack_launch_version index =
        index.dependencies.minecraft ++ "-forge-" ++ fv) ∧
    (∀ (index : MrpackIndex) (lv qv : String), index.dependencies.forge = none →
      index.dependencies.fabricLoader = some lv →
      index.dependencies.quiltLoader = some qv →
      get_mrpack_launch_version index =
        "fabric-loader-" ++ lv ++ "-" ++ index.dependencies.minecraft) := by
  constructor
  · intro index fv h _
    simp [get_mrpack_launch_version, h]
  · intro index lv qv h1 h2 _
    simp [get_mrpack_launch_version, h1, h2]

/-- Witness for C10: a manifest declaring both `forge` and
`fabric-loader` resolves to the Forge version string. -/
theorem C10_launch_version_precedence_witness :
    get_mrpack_launch_version multiLoaderIndex = "1.20.1" ++ "-forge-" ++ "47.2.0" :=
  C10_launch_version_precedence.1 multiLoaderIndex "47.2.0" rfl (Or.inl (by decide))

theorem loaderInstalls_forgePhase_le (deps : Dependencies) (dir : FsPath)
    (head : String → Nat) :
    (loaderInstallEvents (forgePhase deps dir head).fst).length ≤
      if deps.forge.isSome then 1 else 0 := by
  cases h : deps.forge with
  | none =>
    rw [forgePhase_none h]
    exact Nat.le_refl 0
  | some fv =>
    by_cases h1 : head (forgeMavenUrl (forgeCandidate1 deps fv)) = 200
    · rw [forgePhase_hit1 h h1]
      exact Nat.le_refl 1
    · by_cases h2 : head (forgeMavenUrl (forgeCandidate2 deps fv)) = 200
      · rw [forgePhase_hit2 h h1 h2]
        exact Nat.le_refl 1
      · rw [forgePhase_miss h h1 h2]
        exact Nat.zero_le 1

theorem loaderInstalls_fabricPhase_len (deps : Dependencies) (dir : FsPath) :
    (loaderInstallEvents (fabricPhase deps dir)).length =
      if deps.fabricLoader.isSome then 1 else 0 := by
  cases h : deps.fabricLoader with
  | none =>
    rw [fabricPhase_none h]
    rfl
  | some lv =>
    rw [fabricPhase_some h]
    rfl

theorem loaderInstalls_quiltPhase_len (deps : Dependencies) (dir : FsPath) :
    (loaderInstallEvents (quiltPhase deps dir)).length =
      if deps.quiltLoader.isSome then 1 else 0 := by
  cases h : deps.quiltLoader with
  | none =>
    rw [quiltPhase_none h]
    rfl
  | some lv =>
    rw [quiltPhase_some h]
    rfl

theorem loaderInstalls_depsPhase_le (deps : Dependencies) (dir : FsPath)
    (head : String → Nat) :
    (loaderInstallEvents (depsPhase deps dir head).fst).length ≤
      loaderKeyCount deps := by
  have h1 := loaderInstalls_forgePhase_le deps dir head
  have h2 := loaderInstalls_fabricPhase_len deps dir
  have h3 := loaderInstalls_quiltPhase_len deps dir
  rcases hf : (forgePhase deps dir head).snd with _ | e
  · rw [depsPhase_eq_of_forge_none hf]
    simp only [loaderInstallEvents_cons_status, loaderInstallEvents_cons_mc,
      loaderInstallEvents_append, List.length_append, h2, h3]
    unfold loaderKeyCount
    generalize (if deps.forge.isSome then 1 else 0) = A at h1 ⊢
    generalize (if deps.fabricLoader.isSome then 1 else 0) = B
    generalize (if deps.quiltLoader.isSome then 1 else 0) = C
    omega
  · rw [depsPhase_eq_of_forge_err hf]
    simp only [loaderInstallEvents_cons_status, loaderInstallEvents_cons_mc]
    unfold loaderKeyCount
    generalize (if deps.forge.isSome then 1 else 0) = A at h1 ⊢
    generalize (if deps.fabricLoader.isSome then 1 else 0) = B
    generalize (if deps.quiltLoader.isSome then 1 else 0) = C
    omega

/-- Counterexample to C3: for the manifest declaring both `forge` and
`fabric-loader` (with the Forge HEAD probe answering 200), one
`install_mrpack` call invokes the Forge installer and then the Fabric
installer — two loader installers, refuting "no single install call
invokes more than one of the Forge, Fabric, and Quilt installers". -/
theorem C3_counterexample :
    loaderInstallEvents (install_mrpack multiLoaderIndex [] mcDirFix none
        (fun _ => 200) noOptions).fst =
      [Event.installForge "1.20.1-47.2.0" mcDirFix,
       Event.installFabric "1.20.1" mcDirFix "0.15.0"] ∧
    ¬ (loaderInstallEvents (install_mrpack multiLoaderIndex [] mcDirFix none
        (fun _ => 200) noOptions).fst).length ≤ 1 := by
  constructor
  · rfl
  · decide

/-- C3 (amended): the dependency dispatcher checks the loader keys in the
fixed order Forge, Fabric, Quilt as three independent conditionals, so one
`install_mrpack` call invokes at most one loader installer per declared
loader key — at most one overall only when the manifest declares at most
one loader key, not when several are declared. -/
theorem C3_amended_loader_installs :
    ∀ (index : MrpackIndex) (zipEntries : List ZipEntry) (mcd : FsPath)
      (mpd : Option FsPath) (head : String → Nat) (opts : MrpackInstallOptions),
      (loaderInstallEvents (install_mrpack index zipEntries mcd mpd head opts).fst).length ≤
        loaderKeyCount index.dependencies := by
  intro index zipEntries mcd mpd head opts
  rcases downloadLoop_snd (modpackDir mcd mpd) 0 (_filter_mrpack_files index.files opts)
    with hdl | ⟨p, hdl⟩
  · rcases overrideLoop_snd (modpackDir mcd mpd) zipEntries with hov | ⟨q, hov⟩
    · rw [install_mrpack_parts index zipEntries mcd mpd head opts hdl hov]
      simp only [List.cons_append, loaderInstallEvents_cons_status,
        loaderInstallEvents_cons_max, loaderInstallEvents_append,
        loaderInstallEvents_downloadLoop, loaderInstallEvents_overrideLoop,
        List.nil_append, List.length_append, List.length_nil, Nat.zero_add]
      cases hskip : opts.skipDependenciesInstall.getD false
      · exact loaderInstalls_depsPhase_le index.dependencies mcd head
      · exact Nat.zero_le _
    · rw [install_mrpack_ov_err index zipEntries mcd mpd head opts hdl hov]
      simp only [List.cons_append, loaderInstallEvents_cons_status,
        loaderInstallEvents_cons_max, loaderInstallEvents_append,
        loaderInstallEvents_downloadLoop, loaderInstallEvents_overrideLoop,
        List.append_nil]
      exact Nat.zero_le _
  · rw [install_mrpack_dl_err index zipEntries mcd mpd head opts hdl]
    simp only [loaderInstallEvents_cons_status, loaderInstallEvents_cons_max,
      loaderInstallEvents_downloadLoop]
    exact Nat.zero_le _

@[simp] theorem headEvents_cons_headReq (u : String) (tr : List Event) :
    headEvents (Event.headRequest u :: tr) = u :: headEvents tr := rfl

@[simp] theorem headEvents_cons_forge (v : String) (d : FsPath) (tr : List Event) :
    headEvents (Event.installForge v d :: tr) = headEvents tr := rfl

@[simp] theorem forgeInstallEvents_cons_headReq (u : String) (tr : List Event) :
    forgeInstallEvents (Event.headRequest u :: tr) = forgeInstallEvents tr := rfl

@[simp] theorem forgeInstallEvents_cons_forge (v : String) (d : FsPath) (tr : List Event) :
    forgeInstallEvents (Event.installForge v d :: tr) =
      (v, d) :: forgeInstallEvents tr := rfl

theorem headEvents_fabricPhase (deps : Dependencies) (dir : FsPath) :
    headEvents (fabricPhase deps dir) = [] := by
  cases h : deps.fabricLoader with
  | none =>
    rw [fabricPhase_none h]
    rfl
  | some lv =>
    rw [fabricPhase_some h]
    rfl

theorem headEvents_quiltPhase (deps : Dependencies) (dir : FsPath) :
    headEvents (quiltPhase deps dir) = [] := by
  cases h : deps.quiltLoader with
  | none =>
    rw [quiltPhase_none h]
    rfl
  | some lv =>
    rw [quiltPhase_some h]
    rfl

theorem forgeInstallEvents_fabricPhase (deps : Dependencies) (dir : FsPath) :
    forgeInstallEvents (fabricPhase deps dir) = [] := by
  cases h : deps.fabricLoader with
  | none =>
    rw [fabricPhase_none h]
    rfl
  | some lv =>
    rw [fabricPhase_some h]
    rfl

theorem forgeInstallEvents_quiltPhase (deps : Dependencies) (dir : FsPath) :
    forgeInstallEvents (quiltPhase deps dir) = [] := by
  cases h : deps.quiltLoader with
  | none =>
    rw [quiltPhase_none h]
    rfl
  | some lv =>
    rw [quiltPhase_some h]
    rfl

/-- C4: when the manifest declares `forge`, `install_mrpack` probes the two
candidate Forge version strings `<mc>-<forge>` and `<mc>-<forge>-<mc>`
with HEAD requests against the Forge Maven installer URL in this order,
stops at the first candidate answering 200 and installs it, and raises
`VersionNotFound` when neither answers 200 (given that the download and
override phases raised no path error and dependency install is not
skipped). -/
theorem C4_forge_resolution :
    ∀ (index : MrpackIndex) (zipEntries : List ZipEntry) (mcd : FsPath)
      (mpd : Option FsPath) (head : String → Nat) (opts : MrpackInstallOptions)
      (fv : String),
      index.dependencies.forge = some fv →
      opts.skipDependenciesInstall.getD false = false →
      isPathError (install_mrpack index zipEntries mcd mpd head opts).snd = false →
      headEvents (install_mrpack index zipEntries mcd mpd head opts).fst =
        (if head (forgeMavenUrl (forgeCandidate1 index.dependencies fv)) = 200 then
          [forgeMavenUrl (forgeCandidate1 index.dependencies fv)]
         else [forgeMavenUrl (forgeCandidate1 index.dependencies fv),
               forgeMavenUrl (forgeCandidate2 index.dependencies fv)]) ∧
      forgeInstallEvents (install_mrpack index zipEntries mcd mpd head opts).fst =
        (if head (forgeMavenUrl (forgeCandidate1 index.dependencies fv)) = 200 then
          [(forgeCandidate1 index.dependencies fv, mcd)]
         else if head (forgeMavenUrl (forgeCandidate2 index.dependencies fv)) = 200 then
          [(forgeCandidate2 index.dependencies fv, mcd)]
         else []) ∧
      (install_mrpack index zipEntries mcd mpd head opts).snd =
        (if ¬ head (forgeMavenUrl (forgeCandidate1 index.dependencies fv)) = 200 ∧
            ¬ head (forgeMavenUrl (forgeCandidate2 index.dependencies fv)) = 200 then
          some (InstallError.versionNotFound fv)
         else none) := by
  intro index zipEntries mcd mpd head opts fv h hskip hp
  obtain ⟨hdl, hov⟩ := install_phases_ok hp
  have hX : (if opts.skipDependenciesInstall.getD false = true then
        (([], none) : List Event × Option InstallError)
      else depsPhase index.dependencies mcd head) =
      depsPhase index.dependencies mcd head := by
    rw [hskip]
    rfl
  rw [install_mrpack_parts index zipEntries mcd mpd head opts hdl hov, hX]
  by_cases h1 : head (forgeMavenUrl (forgeCandidate1 index.dependencies fv)) = 200
  · have hfg := @forgePhase_hit1 index.dependencies mcd head fv h h1
    have hsnd : (forgePhase index.dependencies mcd head).snd = none := by rw [hfg]
    rw [depsPhase_eq_of_forge_none hsnd, hfg]
    refine ⟨?_, ?_, ?_⟩
    · simp only [List.cons_append, headEvents_cons_status, headEvents_cons_max,
        headEvents_append, headEvents_downloadLoop, headEvents_overrideLoop,
        headEvents_cons_mc, headEvents_cons_headReq, headEvents_cons_forge,
        headEvents_fabricPhase, headEvents_quiltPhase,
        List.nil_append, List.append_nil, if_pos h1]
    · simp only [List.cons_append, forgeInstallEvents_cons_status,
        forgeInstallEvents_cons_max, forgeInstallEvents_append,
        forgeInstallEvents_downloadLoop, forgeInstallEvents_overrideLoop,
        forgeInstallEvents_cons_mc, forgeInstallEvents_cons_headReq,
        forgeInstallEvents_cons_forge, forgeInstallEvents_fabricPhase,
        forgeInstallEvents_quiltPhase, List.nil_append, List.append_nil, if_pos h1]
    · simp [h1]
  · by_cases h2 : head (forgeMavenUrl (forgeCandidate2 index.dependencies fv)) = 200
    · have hfg := @forgePhase_hit2 index.dependencies mcd head fv h h1 h2
      have hsnd : (forgePhase index.dependencies mcd head).snd = none := by rw [hfg]
      rw [depsPhase_eq_of_forge_none hsnd, hfg]
      refine ⟨?_, ?_, ?_⟩
      · simp only [List.cons_append, headEvents_cons_status, headEvents_cons_max,
          headEvents_append, headEvents_downloadLoop, headEvents_overrideLoop,
          headEvents_cons_mc, headEvents_cons_headReq, headEvents_cons_forge,
          headEvents_fabricPhase, headEvents_quiltPhase,
          List.nil_append, List.append_nil, if_neg h1]
      · simp only [List.cons_append, forgeInstallEvents_cons_status,
          forgeInstallEvents_cons_max, forgeInstallEvents_append,
          forgeInstallEvents_downloadLoop, forgeInstallEvents_overrideLoop,
          forgeInstallEvents_cons_mc, forgeInstallEvents_cons_headReq,
          forgeInstallEvents_cons_forge, forgeInstallEvents_fabricPhase,
          forgeInstallEvents_quiltPhase, List.nil_append, List.append_nil,
          if_neg h1, if_pos h2]
      · simp [h1, h2]
    · have hfg := @forgePhase_miss index.dependencies mcd head fv h h1 h2
      have hsnd : (forgePhase index.dependencies mcd head).snd =
          some (InstallError.versionNotFound fv) := by rw [hfg]
      rw [depsPhase_eq_of_forge_err hsnd, hfg]
      refine ⟨?_, ?_, ?_⟩
      · simp only [List.cons_append, headEvents_cons_status, headEvents_cons_max,
          headEvents_append, headEvents_downloadLoop, headEvents_overrideLoop,
          headEvents_cons_mc, headEvents_cons_headReq, headEvents_cons_forge,
          List.nil_append, List.append_nil, if_neg h1]
        rfl
      · simp only [List.cons_append, forgeInstallEvents_cons_status,
          forgeInstallEvents_cons_max, forgeInstallEvents_append,
          forgeInstallEvents_downloadLoop, forgeInstallEvents_overrideLoop,
          forgeInstallEvents_cons_mc, forgeInstallEvents_cons_headReq,
          forgeInstallEvents_cons_forge, List.nil_append, List.append_nil,
          if_neg h1, if_neg h2]
        rfl
      · simp [h1, h2]

/-- Witness for C4: a forge-only manifest with a HEAD collaborator that
answers 200 for every URL selects the first candidate `1.20.1-47.2.0`. -/
theorem C4_forge_resolution_witness :
    headEvents (install_mrpack forgeOnlyIndex [] mcDirFix none (fun _ => 200)
        noOptions).fst =
      [forgeMavenUrl (forgeCandidate1 forgeOnlyIndex.dependencies "47.2.0")] ∧
    forgeInstallEvents (install_mrpack forgeOnlyIndex [] mcDirFix none (fun _ => 200)
        noOptions).fst =
      [(forgeCandidate1 forgeOnlyIndex.dependencies "47.2.0", mcDirFix)] ∧
    (install_mrpack forgeOnlyIndex [] mcDirFix none (fun _ => 200) noOptions).snd =
      none := by
  have h := C4_forge_resolution forgeOnlyIndex [] mcDirFix none (fun _ => 200)
    noOptions "47.2.0" rfl rfl rfl
  simpa using h

/-- C6: `install_mrpack` extracts exactly the archive entries whose name
starts with `overrides/` or `client-overrides/` and whose recorded file
size is nonzero, in archive order: for each such entry the prefix is
stripped, the remainder is resolved against the modpack directory (the
minecraft directory by default), the resolved path passes the path guard,
the parent directory is created, and the entry's bytes are written
verbatim (stated for runs that raise no path error; a failing guard stops
the call instead). -/
theorem C6_override_extraction :
    ∀ (index : MrpackIndex) (zipEntries : List ZipEntry) (mcd : FsPath)
      (mpd : Option FsPath) (head : String → Nat) (opts : MrpackInstallOptions),
      isPathError (install_mrpack index zipEntries mcd mpd head opts).snd = false →
      writeEvents (install_mrpack index zipEntries mcd mpd head opts).fst =
        (zipEntries.filter overrideSelected).map
          (fun e => (overrideDest (modpackDir mcd mpd) e, e.data)) ∧
      makeDirsEvents (install_mrpack index zipEntries mcd mpd head opts).fst =
        (zipEntries.filter overrideSelected).map
          (fun e => (overrideDest (modpackDir mcd mpd) e).dropLast) ∧
      ((zipEntries.filter overrideSelected).all fun e =>
        check_path_inside_minecraft_directory (modpackDir mcd mpd)
          (overrideDest (modpackDir mcd mpd) e)) = true := by
  intro index zipEntries mcd mpd head opts hp
  obtain ⟨hdl, hov⟩ := install_phases_ok hp
  rw [install_mrpack_parts index zipEntries mcd mpd head opts hdl hov]
  refine ⟨?_, ?_, checksPass_overrideLoop_of_none hov⟩
  · simp only [List.cons_append, writeEvents_cons_status, writeEvents_cons_max,
      writeEvents_append, writeEvents_downloadLoop, List.nil_append]
    rw [writeEvents_overrideLoop_of_none hov]
    cases hskip : opts.skipDependenciesInstall.getD false
    · simp [writeEvents_depsPhase]
    · simp
      rfl
  · simp only [List.cons_append, makeDirsEvents_cons_status, makeDirsEvents_cons_max,
      makeDirsEvents_append, makeDirsEvents_downloadLoop, List.nil_append]
    rw [makeDirsEvents_overrideLoop_of_none hov]
    cases hskip : opts.skipDependenciesInstall.getD false
    · simp [makeDirsEvents_depsPhase]
    · simp
      rfl

/-- Witness for C6: the fixture archive — one non-override entry, one
zero-size directory marker, one `overrides/` file and one
`client-overrides/` file — installed into `/root/pack` writes exactly the
two real override files. -/
theorem C6_override_extraction_witness :
    writeEvents (install_mrpack twoFilesIndex zipFix ["root"] (some ["root", "pack"])
        (fun _ => 404) noOptions).fst =
      [(["root", "pack", "config", "a.txt"], [10, 11, 12]),
       (["root", "pack", "b.txt"], [7, 8])] ∧
    makeDirsEvents (install_mrpack twoFilesIndex zipFix ["root"] (some ["root", "pack"])
        (fun _ => 404) noOptions).fst =
      [["root", "pack", "config"], ["root", "pack"]] ∧
    ((zipFix.filter overrideSelected).all fun e =>
      check_path_inside_minecraft_directory (modpackDir ["root"] (some ["root", "pack"]))
        (overrideDest (modpackDir ["root"] (some ["root", "pack"])) e)) = true := by
  have h := C6_override_extraction twoFilesIndex zipFix ["root"] (some ["root", "pack"])
    (fun _ => 404) noOptions rfl
  exact ⟨h.1, h.2.1, h.2.2⟩

theorem range_one_getLast (n : Nat) (h : ¬ n = 0) :
    (List.range' 1 n).getLast? = some n := by
  cases n with
  | zero => exact absurd rfl h
  | succ m =>
    rw [List.range'_1_concat, List.getLast?_concat, Nat.add_comm]

/-- C7: during the download phase of `install_mrpack`, `setMax` is invoked
exactly once, with the filtered-file count, before any download; the
filtered files are fetched strictly in manifest order, each from the first
URL of its `downloads` list with its manifest sha1; after the i-th file
completes, `setProgress` is invoked with `i` (the trace restricted to
download and progress events interleaves them in exactly that way), so the
progress values are `1, …, n` and the last one equals the filtered-file
count (stated for runs that raise no path error). -/
theorem C7_download_phase_protocol :
    ∀ (index : MrpackIndex) (zipEntries : List ZipEntry) (mcd : FsPath)
      (mpd : Option FsPath) (head : String → Nat) (opts : MrpackInstallOptions),
      isPathError (install_mrpack index zipEntries mcd mpd head opts).snd = false →
      setMaxEvents (install_mrpack index zipEntries mcd mpd head opts).fst =
        [(_filter_mrpack_files index.files opts).length] ∧
      noDownloadBeforeSetMax
        (install_mrpack index zipEntries mcd mpd head opts).fst = true ∧
      downloadEvents (install_mrpack index zipEntries mcd mpd head opts).fst =
        (_filter_mrpack_files index.files opts).map
          (fun f => (f.downloads.headD "", absJoin (modpackDir mcd mpd) f.path,
                     f.sha1)) ∧
      downloadProgressEvents (install_mrpack index zipEntries mcd mpd head opts).fst =
        expectedDownloadTrace (modpackDir mcd mpd) 0
          (_filter_mrpack_files index.files opts) ∧
      setProgressEvents (install_mrpack index zipEntries mcd mpd head opts).fst =
        List.range' 1 (_filter_mrpack_files index.files opts).length ∧
      (¬ _filter_mrpack_files index.files opts = [] →
        (setProgressEvents
          (install_mrpack index zipEntries mcd mpd head opts).fst).getLast? =
          some (_filter_mrpack_files index.files opts).length) := by
  intro index zipEntries mcd mpd head opts hp
  obtain ⟨hdl, hov⟩ := install_phases_ok hp
  rw [install_mrpack_parts index zipEntries mcd mpd head opts hdl hov]
  have hsp : setProgressEvents
      ((Event.setStatus "Download mrpack files" ::
        Event.setMax (_filter_mrpack_files index.files opts).length ::
        (downloadLoop (modpackDir mcd mpd) 0 (_filter_mrpack_files index.files opts)).fst) ++
       ((Event.setStatus "Extract overrides" ::
         (overrideLoop (modpackDir mcd mpd) zipEntries).fst) ++
        (if opts.skipDependenciesInstall.getD false = true then ([], none)
         else depsPhase index.dependencies mcd head).fst)) =
      List.range' 1 (_filter_mrpack_files index.files opts).length := by
    simp only [List.cons_append, setProgressEvents_cons_status,
      setProgressEvents_cons_max, setProgressEvents_append,
      setProgressEvents_overrideLoop, List.nil_append]
    rw [setProgressEvents_downloadLoop_of_none hdl]
    cases hskip : opts.skipDependenciesInstall.getD false
    · simp [setProgressEvents_depsPhase]
    · simp
      rfl
  refine ⟨?_, rfl, ?_, ?_, hsp, ?_⟩
  · simp only [List.cons_append, setMaxEvents_cons_status, setMaxEvents_cons_max,
      setMaxEvents_append, setMaxEvents_downloadLoop, setMaxEvents_overrideLoop,
      List.nil_append]
    cases hskip : opts.skipDependenciesInstall.getD false
    · simp [setMaxEvents_depsPhase]
    · simp
      rfl
  · simp only [List.cons_append, downloadEvents_cons_status, downloadEvents_cons_max,
      downloadEvents_append, downloadEvents_overrideLoop, List.nil_append]
    rw [downloadEvents_downloadLoop_of_none hdl]
    cases hskip : opts.skipDependenciesInstall.getD false
    · simp [downloadEvents_depsPhase]
    · simp
      rfl
  · simp only [List.cons_append, downloadProgressEvents_cons_status,
      downloadProgressEvents_cons_max, downloadProgressEvents_append,
      downloadProgressEvents_overrideLoop, List.nil_append]
    rw [downloadProgressEvents_downloadLoop_of_none hdl]
    cases hskip : opts.skipDependenciesInstall.getD false
    · simp [downloadProgressEvents_depsPhase]
    · simp
      rfl
  · intro hne
    rw [hsp]
    refine range_one_getLast _ ?_
    intro h0
    exact hne (List.length_eq_zero.mp h0)

/-- Witness for C7: the two-file manifest installed with no options — two
downloads, setMax 2 once first, progress values 1 then 2. -/
theorem C7_download_phase_protocol_witness :
    setMaxEvents (install_mrpack twoFilesIndex [] mcDirFix none (fun _ => 404)
        noOptions).fst = [2] ∧
    noDownloadBeforeSetMax (install_mrpack twoFilesIndex [] mcDirFix none
        (fun _ => 404) noOptions).fst = true ∧
    downloadEvents (install_mrpack twoFilesIndex [] mcDirFix none (fun _ => 404)
        noOptions).fst =
      [("https://cdn.modrinth.com/data/one.jar",
        ["home", "user", "mc", "mods", "one.jar"],
        "1111111111111111111111111111111111111111"),
       ("https://cdn.modrinth.com/data/two.jar",
        ["home", "user", "mc", "mods", "two.jar"],
        "2222222222222222222222222222222222222222")] ∧
    setProgressEvents (install_mrpack twoFilesIndex [] mcDirFix none (fun _ => 404)
        noOptions).fst = [1, 2] ∧
    (setProgressEvents (install_mrpack twoFilesIndex [] mcDirFix none (fun _ => 404)
        noOptions).fst).getLast? = some 2 := by
  have h := C7_download_phase_protocol twoFilesIndex [] mcDirFix none (fun _ => 404)
    noOptions rfl
  exact ⟨h.1, h.2.1, h.2.2.1, h.2.2.2.2.1, h.2.2.2.2.2 (by decide)⟩

/-- C8: with a truthy `skipDependenciesInstall`, `install_mrpack` performs
the file downloads and override extraction exactly as the corresponding
non-skipping call would (same download, file-write and directory-creation
events), but invokes no dependency installer at all — no
`install_minecraft_version`, no Forge/Fabric/Quilt installer, no Forge
HEAD probe — and, absent a path error, returns with no error right after
override extraction. -/
theorem C8_skip_dependencies :
    ∀ (index : MrpackIndex) (zipEntries : List ZipEntry) (mcd : FsPath)
      (mpd : Option FsPath) (head : String → Nat) (opts : MrpackInstallOptions),
      opts.skipDependenciesInstall.getD false = true →
      depInstallEvents (install_mrpack index zipEntries mcd mpd head opts).fst = [] ∧
      headEvents (install_mrpack index zipEntries mcd mpd head opts).fst = [] ∧
      downloadEvents (install_mrpack index zipEntries mcd mpd head opts).fst =
        downloadEvents (install_mrpack index zipEntries mcd mpd head
          ⟨opts.optionalFiles, some false⟩).fst ∧
      writeEvents (install_mrpack index zipEntries mcd mpd head opts).fst =
        writeEvents (install_mrpack index zipEntries mcd mpd head
          ⟨opts.optionalFiles, some false⟩).fst ∧
      makeDirsEvents (install_mrpack index zipEntries mcd mpd head opts).fst =
        makeDirsEvents (install_mrpack index zipEntries mcd mpd head
          ⟨opts.optionalFiles, some false⟩).fst ∧
      (isPathError (install_mrpack index zipEntries mcd mpd head opts).snd = false →
        (install_mrpack index zipEntries mcd mpd head opts).snd = none) := by
  intro index zipEntries mcd mpd head opts hskip
  have hfl : _filter_mrpack_files index.files ⟨opts.optionalFiles, some false⟩ =
      _filter_mrpack_files index.files opts := by
    rw [filter_mrpack_eq_filter, filter_mrpack_eq_filter]
    rfl
  rcases downloadLoop_snd (modpackDir mcd mpd) 0 (_filter_mrpack_files index.files opts)
    with hdl | ⟨p, hdl⟩
  · rcases overrideLoop_snd (modpackDir mcd mpd) zipEntries with hov | ⟨q, hov⟩
    · have hdl' : (downloadLoop (modpackDir mcd mpd) 0
          (_filter_mrpack_files index.files ⟨opts.optionalFiles, some false⟩)).snd =
          none := by
        rw [hfl]
        exact hdl
      rw [install_mrpack_parts index zipEntries mcd mpd head opts hdl hov,
        install_mrpack_parts index zipEntries mcd mpd head
          ⟨opts.optionalFiles, some false⟩ hdl' hov, hskip, hfl]
      refine ⟨?_, ?_, ?_, ?_, ?_, fun _ => rfl⟩
      · simp only [List.cons_append, depInstallEvents_cons_status,
          depInstallEvents_cons_max, depInstallEvents_append,
          depInstallEvents_downloadLoop, depInstallEvents_overrideLoop,
          List.nil_append, List.append_nil]
        rfl
      · simp only [List.cons_append, headEvents_cons_status, headEvents_cons_max,
          headEvents_append, headEvents_downloadLoop, headEvents_overrideLoop,
          List.nil_append, List.append_nil]
        rfl
      · simp [downloadEvents_overrideLoop, downloadEvents_depsPhase]
      · simp [writeEvents_downloadLoop, writeEvents_depsPhase]
      · simp [makeDirsEvents_downloadLoop, makeDirsEvents_depsPhase]
    · have hov' := hov
      rw [install_mrpack_ov_err index zipEntries mcd mpd head opts hdl hov]
      have hdl' : (downloadLoop (modpackDir mcd mpd) 0
          (_filter_mrpack_files index.files ⟨opts.optionalFiles, some false⟩)).snd =
          none := by
        rw [hfl]
        exact hdl
      rw [install_mrpack_ov_err index zipEntries mcd mpd head
        ⟨opts.optionalFiles, some false⟩ hdl' hov', hfl]
      refine ⟨?_, ?_, rfl, rfl, rfl, ?_⟩
      · simp only [List.cons_append, depInstallEvents_cons_status,
          depInstallEvents_cons_max, depInstallEvents_append,
          depInstallEvents_downloadLoop, depInstallEvents_overrideLoop,
          List.append_nil]
      · simp only [List.cons_append, headEvents_cons_status, headEvents_cons_max,
          headEvents_append, headEvents_downloadLoop, headEvents_overrideLoop,
          List.append_nil]
      · intro hcontra
        simp [isPathError] at hcontra
  · have hdl' : (downloadLoop (modpackDir mcd mpd) 0
        (_filter_mrpack_files index.files ⟨opts.optionalFiles, some false⟩)).snd =
        some (InstallError.pathEscapesRoot p) := by
      rw [hfl]
      exact hdl
    rw [install_mrpack_dl_err index zipEntries mcd mpd head opts hdl,
      install_mrpack_dl_err index zipEntries mcd mpd head
        ⟨opts.optionalFiles, some false⟩ hdl', hfl]
    refine ⟨?_, ?_, rfl, rfl, rfl, ?_⟩
    · simp only [depInstallEvents_cons_status, depInstallEvents_cons_max,
        depInstallEvents_downloadLoop]
    · simp only [headEvents_cons_status, headEvents_cons_max,
        headEvents_downloadLoop]
    · intro hcontra
      simp [isPathError] at hcontra

/-- Witness for C8: skipping dependencies on the two-file manifest with the
fixture archive — no dependency installer events, no HEAD probes, clean
return. -/
theorem C8_skip_dependencies_witness :
    depInstallEvents (install_mrpack twoFilesIndex zipFix ["root"]
        (some ["root", "pack"]) (fun _ => 200) ⟨none, some true⟩).fst = [] ∧
    headEvents (install_mrpack twoFilesIndex zipFix ["root"]
        (some ["root", "pack"]) (fun _ => 200) ⟨none, some true⟩).fst = [] ∧
    (install_mrpack twoFilesIndex zipFix ["root"] (some ["root", "pack"])
        (fun _ => 200) ⟨none, some true⟩).snd = none := by
  have h := C8_skip_dependencies twoFilesIndex zipFix ["root"] (some ["root", "pack"])
    (fun _ => 200) ⟨none, some true⟩ rfl
  exact ⟨h.1, h.2.1, h.2.2.2.2.2 rfl⟩

theorem pathCheck_all_of (md : FsPath) (tr : List Event)
    (h : ∀ pr ∈ pathCheckEvents tr, pr.fst = md) :
    ((pathCheckEvents tr).all fun pr => decide (pr.fst = md)) = true :=
  List.all_eq_true.mpr fun pr hpr => decide_eq_true (h pr hpr)

theorem dl_dest_isPre (md : FsPath) (c : Nat) (files : List MrpackFile) :
    (downloadEvents (downloadLoop md c files).fst).map (fun d => d.snd.fst) <+:
      files.map fun f => absJoin md f.path := by
  have h := (downloadEvents_downloadLoop_isPre md c files).map fun d => d.snd.fst
  rw [List.map_map] at h
  exact h

theorem ov_dest_isPre (md : FsPath) (entries : List ZipEntry) :
    (writeEvents (overrideLoop md entries).fst).map Prod.fst <+:
      (entries.filter overrideSelected).map (overrideDest md) := by
  have h := (writeEvents_overrideLoop_isPre md entries).map Prod.fst
  rw [List.map_map] at h
  exact h

/-- C9: every path-guard invocation of `install_mrpack` checks against the
modpack directory; download destinations are resolved against the modpack
directory (the download-destination list is a prefix of the per-file
resolutions, the whole list on success), and so are the override write
destinations; every delegated dependency install receives the minecraft
directory; and a call with no modpack directory behaves exactly as one
whose modpack directory is the minecraft directory. -/
theorem C9_directory_separation :
    ∀ (index : MrpackIndex) (zipEntries : List ZipEntry) (mcd : FsPath)
      (mpd : Option FsPath) (head : String → Nat) (opts : MrpackInstallOptions),
      ((pathCheckEvents (install_mrpack index zipEntries mcd mpd head opts).fst).all
        fun pr => decide (pr.fst = modpackDir mcd mpd)) = true ∧
      (downloadEvents (install_mrpack index zipEntries mcd mpd head opts).fst).map
          (fun d => d.snd.fst) <+:
        (_filter_mrpack_files index.files opts).map
          (fun f => absJoin (modpackDir mcd mpd) f.path) ∧
      (writeEvents (install_mrpack index zipEntries mcd mpd head opts).fst).map
          Prod.fst <+:
        (zipEntries.filter overrideSelected).map (overrideDest (modpackDir mcd mpd)) ∧
      ((depInstallDirs (install_mrpack index zipEntries mcd mpd head opts).fst).all
        fun d => decide (d = mcd)) = true ∧
      install_mrpack index zipEntries mcd none head opts =
        install_mrpack index zipEntries mcd (some mcd) head opts := by
  intro index zipEntries mcd mpd head opts
  have hXpc : pathCheckEvents (if opts.skipDependenciesInstall.getD false = true then
      (([], none) : List Event × Option InstallError)
      else depsPhase index.dependencies mcd head).fst = [] := by
    cases hskip : opts.skipDependenciesInstall.getD false
    · exact pathCheckEvents_depsPhase _ _ _
    · rfl
  have hXdl : downloadEvents (if opts.skipDependenciesInstall.getD false = true then
      (([], none) : List Event × Option InstallError)
      else depsPhase index.dependencies mcd head).fst = [] := by
    cases hskip : opts.skipDependenciesInstall.getD false
    · exact downloadEvents_depsPhase _ _ _
    · rfl
  have hXw : writeEvents (if opts.skipDependenciesInstall.getD false = true then
      (([], none) : List Event × Option InstallError)
      else depsPhase index.dependencies mcd head).fst = [] := by
    cases hskip : opts.skipDependenciesInstall.getD false
    · exact writeEvents_depsPhase _ _ _
    · rfl
  have hXd : ∀ d ∈ depInstallDirs (if opts.skipDependenciesInstall.getD false = true then
      (([], none) : List Event × Option InstallError)
      else depsPhase index.dependencies mcd head).fst, d = mcd := by
    cases hskip : opts.skipDependenciesInstall.getD false
    · exact fun d hd => depInstallDirs_depsPhase hd
    · exact fun d hd => absurd hd (List.not_mem_nil d)
  rcases downloadLoop_snd (modpackDir mcd mpd) 0 (_filter_mrpack_files index.files opts)
    with hdl | ⟨p, hdl⟩
  · rcases overrideLoop_snd (modpackDir mcd mpd) zipEntries with hov | ⟨q, hov⟩
    · rw [install_mrpack_parts index zipEntries mcd mpd head opts hdl hov]
      refine ⟨?_, ?_, ?_, ?_, rfl⟩
      · refine pathCheck_all_of _ _ ?_
        intro pr hpr
        simp only [List.cons_append, pathCheckEvents_cons_status,
          pathCheckEvents_cons_max, pathCheckEvents_append, hXpc, List.append_nil,
          List.mem_append] at hpr
        rcases hpr with h1 | h2
        · exact pathCheck_base_downloadLoop h1
        · exact pathCheck_base_overrideLoop h2
      · simp only [List.cons_append, downloadEvents_cons_status,
          downloadEvents_cons_max, downloadEvents_append, downloadEvents_overrideLoop,
          hXdl, List.append_nil, List.nil_append]
        exact dl_dest_isPre _ _ _
      · simp only [List.cons_append, writeEvents_cons_status, writeEvents_cons_max,
          writeEvents_append, writeEvents_downloadLoop, hXw, List.append_nil,
          List.nil_append]
        exact ov_dest_isPre _ _
      · refine List.all_eq_true.mpr ?_
        intro d hd
        simp only [List.cons_append, depInstallDirs_cons_status,
          depInstallDirs_cons_max, depInstallDirs_append, depInstallDirs_downloadLoop,
          depInstallDirs_overrideLoop, List.nil_append, List.mem_append,
          List.not_mem_nil, false_or] at hd
        exact decide_eq_true (hXd d hd)
    · rw [install_mrpack_ov_err index zipEntries mcd mpd head opts hdl hov]
      refine ⟨?_, ?_, ?_, ?_, rfl⟩
      · refine pathCheck_all_of _ _ ?_
        intro pr hpr
        simp only [List.cons_append, pathCheckEvents_cons_status,
          pathCheckEvents_cons_max, pathCheckEvents_append, List.mem_append] at hpr
        rcases hpr with h1 | h2
        · exact pathCheck_base_downloadLoop h1
        · exact pathCheck_base_overrideLoop h2
      · simp only [List.cons_append, downloadEvents_cons_status,
          downloadEvents_cons_max, downloadEvents_append, downloadEvents_overrideLoop,
          List.append_nil]
        exact dl_dest_isPre _ _ _
      · simp only [List.cons_append, writeEvents_cons_status, writeEvents_cons_max,
          writeEvents_append, writeEvents_downloadLoop, List.nil_append]
        exact ov_dest_isPre _ _
      · refine List.all_eq_true.mpr ?_
        intro d hd
        simp only [List.cons_append, depInstallDirs_cons_status,
          depInstallDirs_cons_max, depInstallDirs_append, depInstallDirs_downloadLoop,
          depInstallDirs_overrideLoop, List.append_nil, List.not_mem_nil] at hd
  · rw [install_mrpack_dl_err index zipEntries mcd mpd head opts hdl]
    refine ⟨?_, ?_, ?_, ?_, rfl⟩
    · refine pathCheck_all_of _ _ ?_
      intro pr hpr
      simp only [pathCheckEvents_cons_status, pathCheckEvents_cons_max] at hpr
      exact pathCheck_base_downloadLoop hpr
    · simp only [downloadEvents_cons_status, downloadEvents_cons_max]
      exact dl_dest_isPre _ _ _
    · simp only [writeEvents_cons_status, writeEvents_cons_max,
        writeEvents_downloadLoop, List.map_nil]
      exact List.nil_prefix
    · simp only [depInstallDirs_cons_status, depInstallDirs_cons_max,
        depInstallDirs_downloadLoop, List.all_nil]
